/-
Verification of the Farmo instant-booking dispatch core.

Shallow embedding of `apps/bookings` (models.py, serializers.py, views.py):
the booking / request data model, the broadcast at instant-booking
creation, and the provider Accept / Decline / expiry-sweep operations.

Modelling conventions:
* time is a `Nat` (minutes); `timezone.now()` becomes an explicit `now`
  argument threaded through each operation, exactly one value per
  save-sequence (the source reads the clock more than once inside a
  request, always within the same instant for our purposes);
* database ids are `Nat`; nullable columns are `Option`;
* `Decimal` columns are `Rat`;
* the floating-point `haversine_km` (trigonometric, on IEEE floats) is
  abstracted as an explicit distance-function argument `dist` to the
  broadcast; every theorem about the broadcast quantifies over it;
* Python `round(x, 2)` is modelled by `round2` (round to 2 decimals);
* the random 4-digit OTPs generated in `Booking.save` are passed in as
  explicit arguments `o1 o2` to the operations that can reach `CONFIRMED`;
* the row set of `InstantBookingRequest` for one booking is the list
  `requests`, in queryset order.
-/
import Mathlib

namespace Farmo

/-- `Booking.BookingType` (models.py). -/
inductive BookingType where
  | instant
  | scheduled
deriving DecidableEq, Repr

/-- `Booking.Status` (models.py). -/
inductive BookingStatus where
  | pending
  | searching
  | confirmed
  | rejected
  | expired
  | inProgress
  | completed
  | cancelled
deriving DecidableEq, Repr

/-- `InstantBookingRequest.RequestStatus` (models.py). -/
inductive RequestStatus where
  | pending
  | accepted
  | declined
  | expired
deriving DecidableEq, Repr, Inhabited

/-- One `InstantBookingRequest` row (models.py): the fields the dispatch
core reads or writes. -/
structure InstantRequest where
  provider : Nat
  status : RequestStatus
  respondedAt : Option Nat
  distanceKm : Rat
deriving DecidableEq, Repr, Inhabited

/-- One `Booking` row (models.py): the fields the dispatch core reads or
writes.  `requests` is the set of `InstantBookingRequest` rows whose
`booking` foreign key points at this booking, in queryset order. -/
structure BookingState where
  bookingType : BookingType
  status : BookingStatus
  provider : Option Nat
  assignedAt : Option Nat
  expiresAt : Option Nat
  lat : Option Rat
  lng : Option Rat
  startJobOtp : Option String
  endJobOtp : Option String
  cancellationReason : Option String
  cancelledBy : Option Nat
  workStartedAt : Option Nat
  workCompletedAt : Option Nat
  requests : List InstantRequest
deriving DecidableEq, Repr

/-- `Booking.is_expired` (models.py): an instant booking with a deadline is
expired iff `now > expires_at` and the status is still `SEARCHING`. -/
def isExpired (b : BookingState) (now : Nat) : Bool :=
  if b.bookingType = BookingType.instant then
    match b.expiresAt with
    | some e => decide (e < now) && decide (b.status = BookingStatus.searching)
    | none => false
  else false

/-- The OTP-generation step of `Booking.save` (models.py): when the booking
is `CONFIRMED` and has no start OTP yet, both OTPs are generated (the fresh
random values are the arguments `o1 o2`). -/
def saveOtps (b : BookingState) (o1 o2 : String) : BookingState :=
  if b.status = BookingStatus.confirmed ∧ b.startJobOtp = none then
    { b with startJobOtp := some o1, endJobOtp := some o2 }
  else b

/-- The first `PENDING` request of provider `p`, i.e. the
`InstantBookingRequest.objects.filter(booking=…, provider=…,
status=PENDING).first()` lookup of the accept and decline views. -/
def findPending (reqs : List InstantRequest) (p : Nat) : Option InstantRequest :=
  reqs.find? fun r =>
    decide (r.provider = p) && decide (r.status = RequestStatus.pending)

/-- Update the first `PENDING` request of provider `p` to status `st` with
`responded_at = now`, leaving every other row unchanged (the single-row
`ibr.save()` of the accept and decline views). -/
def setFirstPending (reqs : List InstantRequest) (p : Nat)
    (st : RequestStatus) (now : Nat) : List InstantRequest :=
  match reqs with
  | [] => []
  | r :: rs =>
    if r.provider = p ∧ r.status = RequestStatus.pending then
      { r with status := st, respondedAt := some now } :: rs
    else r :: setFirstPending rs p st now

/-- The bulk update of the accept view: every request still `PENDING`
becomes `EXPIRED` with `responded_at = now`. -/
def expirePendingStamped (reqs : List InstantRequest) (now : Nat) :
    List InstantRequest :=
  reqs.map fun r =>
    if r.status = RequestStatus.pending then
      { r with status := RequestStatus.expired, respondedAt := some now }
    else r

/-- The bulk update of the customer status view: every request still
`PENDING` becomes `EXPIRED` (no `responded_at` is written there). -/
def expirePendingPlain (reqs : List InstantRequest) : List InstantRequest :=
  reqs.map fun r =>
    if r.status = RequestStatus.pending then
      { r with status := RequestStatus.expired }
    else r

/-- Number of requests still `PENDING` (the decline view's count query). -/
def countPending (reqs : List InstantRequest) : Nat :=
  (reqs.filter fun r => decide (r.status = RequestStatus.pending)).length

/-- Number of requests that ever reached `ACCEPTED`. -/
def acceptedCount (reqs : List InstantRequest) : Nat :=
  (reqs.filter fun r => decide (r.status = RequestStatus.accepted)).length

/-- Outcome of `ProviderInstantBookingAcceptView.post` (views.py).
`errAlreadyDecided` is the 409 "Booking is no longer available",
`errExpired` the 410 "Booking has expired", `errNoPendingRequest` the 400
"You do not have a pending request for this booking". -/
inductive AcceptOutcome where
  | ok
  | errAlreadyDecided
  | errExpired
  | errNoPendingRequest
deriving DecidableEq, Repr

/-- `ProviderInstantBookingAcceptView.post` (views.py): the locked
read-check-write sequence on one booking.  The row is fetched with
`booking_type=INSTANT, status=SEARCHING`; a miss is the 409 conflict.
Then the lazy expiry check, then the pending-request lookup, and on
success: assign provider, `CONFIRMED` (whose save generates OTPs), mark
the caller's request `ACCEPTED`, and expire every other `PENDING`
request. -/
def accept (b : BookingState) (p now : Nat) (o1 o2 : String) :
    AcceptOutcome × BookingState :=
  if ¬ (b.bookingType = BookingType.instant ∧ b.status = BookingStatus.searching) then
    (AcceptOutcome.errAlreadyDecided, b)
  else if isExpired b now then
    (AcceptOutcome.errExpired, { b with status := BookingStatus.expired })
  else
    match findPending b.requests p with
    | none => (AcceptOutcome.errNoPendingRequest, b)
    | some _ =>
      let b1 := saveOtps
        { b with provider := some p, status := BookingStatus.confirmed } o1 o2
      let reqs1 := setFirstPending b1.requests p RequestStatus.accepted now
      let reqs2 := expirePendingStamped reqs1 now
      (AcceptOutcome.ok, { b1 with requests := reqs2 })

/-- Outcome of `ProviderInstantBookingDeclineView.post` (views.py):
`errNoPendingRequest` is the 404 of `get_object_or_404`. -/
inductive DeclineOutcome where
  | ok
  | errNoPendingRequest
deriving DecidableEq, Repr

/-- `ProviderInstantBookingDeclineView.post` (views.py): find the caller's
`PENDING` request (404 if absent), mark it `DECLINED` with
`responded_at = now`, then count the remaining `PENDING` requests; if the
count is zero the booking's status is set to `EXPIRED`.  The view never
checks the booking's own status. -/
def decline (b : BookingState) (p now : Nat) : DeclineOutcome × BookingState :=
  match findPending b.requests p with
  | none => (DeclineOutcome.errNoPendingRequest, b)
  | some _ =>
    let reqs := setFirstPending b.requests p RequestStatus.declined now
    if countPending reqs = 0 then
      (DeclineOutcome.ok, { b with requests := reqs, status := BookingStatus.expired })
    else
      (DeclineOutcome.ok, { b with requests := reqs })

/-- The lazy expiry sweep of `InstantBookingStatusView.get` (views.py): if
the booking is still `SEARCHING` and past its deadline, set it `EXPIRED`
and bulk-expire its `PENDING` requests (without `responded_at`). -/
def sweep (b : BookingState) (now : Nat) : BookingState :=
  if b.bookingType = BookingType.instant ∧
      b.status = BookingStatus.searching ∧ isExpired b now then
    { b with status := BookingStatus.expired,
             requests := expirePendingPlain b.requests }
  else b

/-- `BookingCancelSerializer.validate` (serializers.py): the `reason` field
is required with `min_length=10`; a `COMPLETED` or `CANCELLED` booking
cannot be cancelled, nor can an `IN_PROGRESS` one. -/
def cancelValid (b : BookingState) (reason : String) : Bool :=
  if reason.length < 10 then false
  else if b.status = BookingStatus.completed ∨ b.status = BookingStatus.cancelled then
    false
  else if b.status = BookingStatus.inProgress then false
  else true

/-- `CustomerBookingCancelView.post` / `ProviderBookingCancelView.post`
(views.py): on a valid cancellation, set status `CANCELLED`, record the
reason and the cancelling user, and save.  The booking's requests are not
touched. -/
def cancel (b : BookingState) (reason : String) (user : Nat) :
    Bool × BookingState :=
  if cancelValid b reason then
    (true, { b with status := BookingStatus.cancelled,
                    cancellationReason := some reason,
                    cancelledBy := some user })
  else (false, b)

/-- The `action` choices of `BookingStatusUpdateSerializer`
(serializers.py). -/
inductive ProviderAction where
  | acceptAction
  | rejectAction
  | startAction
  | completeAction
deriving DecidableEq, Repr

/-- `BookingStatusUpdateSerializer.validate` (serializers.py): accept and
reject need a `PENDING` booking (reject also a reason), start needs
`CONFIRMED` plus the start OTP, complete needs `IN_PROGRESS` plus the end
OTP. -/
def providerActionValid (b : BookingState) (a : ProviderAction)
    (otp rejectionReason : Option String) : Bool :=
  match a with
  | ProviderAction.acceptAction => decide (b.status = BookingStatus.pending)
  | ProviderAction.rejectAction =>
    decide (b.status = BookingStatus.pending) && rejectionReason.isSome
  | ProviderAction.startAction =>
    decide (b.status = BookingStatus.confirmed) && decide (otp = b.startJobOtp)
  | ProviderAction.completeAction =>
    decide (b.status = BookingStatus.inProgress) && decide (otp = b.endJobOtp)

/-- `ProviderBookingActionView.post` (views.py): on a valid action, apply
the corresponding status change and save (the accept branch's save
generates OTPs; the reject branch also records the rejection reason and
`cancelled_by = request.user`, here the id `user`). -/
def providerAction (b : BookingState) (a : ProviderAction)
    (otp rejectionReason : Option String) (user now : Nat) (o1 o2 : String) :
    Bool × BookingState :=
  if providerActionValid b a otp rejectionReason then
    match a with
    | ProviderAction.acceptAction =>
      (true, saveOtps { b with status := BookingStatus.confirmed } o1 o2)
    | ProviderAction.rejectAction =>
      (true, { b with status := BookingStatus.rejected,
                      cancellationReason := rejectionReason,
                      cancelledBy := some user })
    | ProviderAction.startAction =>
      (true, { b with status := BookingStatus.inProgress,
                      workStartedAt := some now })
    | ProviderAction.completeAction =>
      (true, { b with status := BookingStatus.completed,
                      workCompletedAt := some now })
  else (false, b)

/-- A `PartnerProfile` row (partners/models.py): the fields the broadcast
reads.  `latitude` / `longitude` are nullable decimals. -/
structure PartnerRec where
  id : Nat
  isVerified : Bool
  isAvailable : Bool
  latitude : Option Rat
  longitude : Option Rat
deriving DecidableEq, Repr

/-- A service listing as consumed by `InstantBookingCreateView.post`
(views.py), which filters on `category`, `is_active` and the
`provider` relation and then reads `svc.provider`. -/
structure ServiceRec where
  category : Nat
  isActive : Bool
  provider : PartnerRec
deriving DecidableEq, Repr

/-- A `Category` row (services/models.py): the instant-booking
configuration fields. -/
structure CategoryRec where
  id : Nat
  isActive : Bool
  instantEnabled : Bool
  instantPrice : Rat
  instantTimeoutMinutes : Nat
  instantSearchRadiusKm : Nat
deriving DecidableEq, Repr

/-- Python truthiness of a nullable decimal, as in the broadcast's
`if partner.latitude and partner.longitude:` — `None` and `0` are both
falsy. -/
def truthy : Option Rat → Bool
  | none => false
  | some x => !(decide (x = 0))

/-- Python `round(x, 2)`: round to two decimal places.  (CPython rounds
ties to even; ties are irrelevant to every claim, so nearest-with-half-up
is used.) -/
def round2 (q : Rat) : Rat := (Int.floor (q * 100 + 1 / 2) : Rat) / 100

/-- The eligibility filter of `InstantBookingCreateView.post` (views.py):
services in the booking's category, active, with a verified and available
provider. -/
def eligibleServices (services : List ServiceRec) (cat : Nat) :
    List ServiceRec :=
  services.filter fun s =>
    decide (s.category = cat) && s.isActive &&
      s.provider.isVerified && s.provider.isAvailable

/-- One iteration of the broadcast loop of `InstantBookingCreateView.post`
(views.py): when the provider's coordinates are truthy and the distance
from `(cLat, cLon)` under the distance function `dist` (abstracting the
float `haversine_km`) is within `radius`, a `PENDING` request carrying the
rounded distance is created for the provider. -/
def broadcastEntry (dist : Rat → Rat → Rat → Rat → Rat)
    (cLat cLon radius : Rat) (s : ServiceRec) : Option InstantRequest :=
  if truthy s.provider.latitude && truthy s.provider.longitude then
    let d := dist cLat cLon (s.provider.latitude.getD 0)
      (s.provider.longitude.getD 0)
    if d ≤ radius then
      some { provider := s.provider.id, status := RequestStatus.pending,
             respondedAt := none, distanceKm := round2 d }
    else none
  else none

/-- The sequence of request rows the broadcast loop of
`InstantBookingCreateView.post` (views.py) attempts to insert, in
iteration order.  The loop that actually runs, including the database's
`unique_together` constraint on the inserts, is `broadcastLoop`; the two
agree whenever no provider appears twice among the eligible services. -/
def broadcastRequests (dist : Rat → Rat → Rat → Rat → Rat)
    (services : List ServiceRec) (cat : Nat) (cLat cLon radius : Rat) :
    List InstantRequest :=
  (eligibleServices services cat).filterMap (broadcastEntry dist cLat cLon radius)

/-- Whether a request row for provider `q` already exists for this
booking (and broadcast round 1, the only round the view creates). -/
def hasProvider (reqs : List InstantRequest) (q : Nat) : Bool :=
  reqs.any fun r => decide (r.provider = q)

/-- Result of the broadcast loop: either it ran to completion with the
created rows, or `InstantBookingRequest.objects.create` violated the
`unique_together ('booking', 'provider', 'broadcast_round')` constraint
of models.py and raised IntegrityError mid-loop.  The view wraps the
loop in no transaction, so the rows created before the error persist. -/
inductive BroadcastResult where
  | ok (reqs : List InstantRequest)
  | integrityError (persisted : List InstantRequest)
deriving DecidableEq, Repr

/-- The rows persisted by the loop in either outcome. -/
def BroadcastResult.rows : BroadcastResult → List InstantRequest
  | BroadcastResult.ok reqs => reqs
  | BroadcastResult.integrityError persisted => persisted

/-- The broadcast loop of `InstantBookingCreateView.post` (views.py) over
the remaining filtered services, with `acc` the rows inserted so far: each
in-range provider's row is inserted unless a row for the same provider
already exists, in which case the insert raises IntegrityError and the
loop aborts with the rows inserted so far. -/
def broadcastLoop (dist : Rat → Rat → Rat → Rat → Rat)
    (cLat cLon radius : Rat) :
    List ServiceRec → List InstantRequest → BroadcastResult
  | [], acc => BroadcastResult.ok acc
  | s :: rest, acc =>
    match broadcastEntry dist cLat cLon radius s with
    | none => broadcastLoop dist cLat cLon radius rest acc
    | some r =>
      if hasProvider acc r.provider then BroadcastResult.integrityError acc
      else broadcastLoop dist cLat cLon radius rest (acc ++ [r])

/-- The payload of an instant-booking creation request as the view reads
it: the serializer-validated `lat` / `lng` (required) plus the raw
`request.data` fields `latitude` / `longitude` (optional; the view reads
them with default `0`). -/
structure CreateInput where
  category : CategoryRec
  address : String
  lat : Rat
  lng : Rat
  rawLatitude : Option Rat
  rawLongitude : Option Rat
  quantity : Nat
deriving DecidableEq, Repr

/-- Outcome of `InstantBookingCreateView.post` (views.py):
`invalid` is the serializer's 400, `errNoProvidersNearby` the 404
"No providers available nearby", `created n` the 201 notifying `n`
providers, and `serverError` the uncaught IntegrityError (HTTP 500)
raised when the broadcast loop hits the `unique_together` constraint. -/
inductive CreateOutcome where
  | invalid
  | errNoProvidersNearby
  | created (n : Nat)
  | serverError
deriving DecidableEq, Repr

/-- `InstantBookingCreateSerializer` validation (serializers.py): the
category must be active, instant-enabled, and have a positive instant
price. -/
def instantCreateValid (inp : CreateInput) : Bool :=
  inp.category.isActive && inp.category.instantEnabled &&
    decide (0 < inp.category.instantPrice)

/-- The booking row built by `InstantBookingCreateSerializer.create` plus
`Booking.save` (serializers.py, models.py): type `INSTANT`, status
`SEARCHING`, no provider, stored location from the validated `lat` /
`lng`, and `expires_at = now + category.instant_timeout_minutes`. -/
def freshInstantBooking (inp : CreateInput) (now : Nat) : BookingState :=
  { bookingType := BookingType.instant
    status := BookingStatus.searching
    provider := none
    assignedAt := none
    expiresAt := some (now + inp.category.instantTimeoutMinutes)
    lat := some inp.lat
    lng := some inp.lng
    startJobOtp := none
    endJobOtp := none
    cancellationReason := none
    cancelledBy := none
    workStartedAt := none
    workCompletedAt := none
    requests := [] }

/-- `InstantBookingCreateView.post` (views.py): validate, create the
booking, read the broadcast origin from the raw `latitude` / `longitude`
fields with default `0`, run the broadcast loop within the category's
search radius; on an IntegrityError the already-inserted rows and the
still-`SEARCHING` booking persist and the caller gets a 500; otherwise,
if zero requests were created, set the booking `EXPIRED` and report
`NoProvidersNearby`. -/
def instantCreate (dist : Rat → Rat → Rat → Rat → Rat)
    (services : List ServiceRec) (inp : CreateInput) (now : Nat) :
    CreateOutcome × Option BookingState :=
  if ¬ instantCreateValid inp then (CreateOutcome.invalid, none)
  else
    let booking := freshInstantBooking inp now
    let customerLat := inp.rawLatitude.getD 0
    let customerLon := inp.rawLongitude.getD 0
    match broadcastLoop dist customerLat customerLon
      (inp.category.instantSearchRadiusKm : Rat)
      (eligibleServices services inp.category.id) [] with
    | BroadcastResult.integrityError persisted =>
      (CreateOutcome.serverError, some { booking with requests := persisted })
    | BroadcastResult.ok reqs =>
      if reqs.length = 0 then
        (CreateOutcome.errNoProvidersNearby,
          some { booking with status := BookingStatus.expired })
      else
        (CreateOutcome.created reqs.length,
          some { booking with requests := reqs })

/-- A scheduled-service listing as consumed by
`BookingCreateSerializer.create` (serializers.py): the partner who owns
it and its price. -/
structure ScheduledServiceRec where
  partner : Nat
  price : Rat
deriving DecidableEq, Repr

/-- `BookingCreateSerializer.create` (serializers.py): a scheduled booking
is created with `provider = service.partner` and no explicit status, so
the model default `PENDING` applies. -/
def createScheduledBooking (svc : ScheduledServiceRec)
    (lat lng : Rat) : BookingState :=
  { bookingType := BookingType.scheduled
    status := BookingStatus.pending
    provider := some svc.partner
    assignedAt := none
    expiresAt := none
    lat := some lat
    lng := some lng
    startJobOtp := none
    endJobOtp := none
    cancellationReason := none
    cancelledBy := none
    workStartedAt := none
    workCompletedAt := none
    requests := [] }

/-- One serialized step of the instant-booking response protocol: the
operations of claim C1's traces (provider Accept, provider Decline, lazy
expiry sweep). -/
inductive Op where
  | acceptOp (p now : Nat) (o1 o2 : String)
  | declineOp (p now : Nat)
  | sweepOp (now : Nat)
deriving DecidableEq, Repr

/-- Apply one serialized operation to the booking row (discarding the HTTP
outcome). -/
def applyOp (b : BookingState) : Op → BookingState
  | Op.acceptOp p now o1 o2 => (accept b p now o1 o2).2
  | Op.declineOp p now => (decline b p now).2
  | Op.sweepOp now => sweep b now

/-- Run a serialized trace of operations. -/
def run (b : BookingState) (ops : List Op) : BookingState :=
  ops.foldl applyOp b

/-- Number of requests of provider `q` in a request list. -/
def providerCount (reqs : List InstantRequest) (q : Nat) : Nat :=
  (reqs.filter fun r => decide (r.provider = q)).length

/-- The single-winner invariant on one booking row: while it is still
`SEARCHING` no request is `ACCEPTED`, and at most one request is ever
`ACCEPTED`. -/
def AcceptInv (b : BookingState) : Prop :=
  (b.status = BookingStatus.searching → acceptedCount b.requests = 0) ∧
  acceptedCount b.requests ≤ 1

/-- The provider-assignment invariant maintained by the instant response
operations: either the booking is unassigned and `SEARCHING` or `EXPIRED`,
or it is assigned, `CONFIRMED`, and has no `PENDING` request left. -/
def ProviderInv (b : BookingState) : Prop :=
  (b.provider = none ∧ (b.status = BookingStatus.searching ∨
    b.status = BookingStatus.expired)) ∨
  (∃ p, b.provider = some p ∧ b.status = BookingStatus.confirmed ∧
    countPending b.requests = 0)

/-- A pending broadcast request from provider `p` at 3 km. -/
def reqPending (p : Nat) : InstantRequest :=
  { provider := p, status := RequestStatus.pending, respondedAt := none,
    distanceKm := 3 }

/-- A freshly broadcast instant booking: `SEARCHING`, unassigned,
deadline at 100, pending requests from providers 1 and 2. -/
def searchingBooking : BookingState :=
  { bookingType := BookingType.instant
    status := BookingStatus.searching
    provider := none
    assignedAt := none
    expiresAt := some 100
    lat := some 10
    lng := some 20
    startJobOtp := none
    endJobOtp := none
    cancellationReason := none
    cancelledBy := none
    workStartedAt := none
    workCompletedAt := none
    requests := [reqPending 1, reqPending 2] }

/-- The booking after provider 1 won it. -/
def confirmedBooking : BookingState :=
  { searchingBooking with
      status := BookingStatus.confirmed
      provider := some 1
      startJobOtp := some "1111"
      endJobOtp := some "2222"
      requests :=
        [{ reqPending 1 with
             status := RequestStatus.accepted, respondedAt := some 5 },
         { reqPending 2 with
             status := RequestStatus.expired, respondedAt := some 5 }] }

/-- An expired instant booking with no remaining requests. -/
def expiredBooking : BookingState :=
  { searchingBooking with status := BookingStatus.expired, requests := [] }
/-- A distance function that reports 7 km between any two points (a stand-in
for the float haversine in concrete runs). -/
def distSeven : Rat → Rat → Rat → Rat → Rat := fun _ _ _ _ => 7

/-- A verified, available partner with truthy coordinates. -/
def samplePartner : PartnerRec :=
  { id := 1, isVerified := true, isAvailable := true,
    latitude := some 10, longitude := some 20 }

/-- One active service in category 5 owned by the sample partner. -/
def sampleServices : List ServiceRec :=
  [{ category := 5, isActive := true, provider := samplePartner }]

/-- Category 5, instant-enabled, price 100, timeout 10, radius 15 km. -/
def sampleCategory : CategoryRec :=
  { id := 5, isActive := true, instantEnabled := true, instantPrice := 100,
    instantTimeoutMinutes := 10, instantSearchRadiusKm := 15 }

/-- A creation payload supplying both the validated `lat`/`lng` and the raw
`latitude`/`longitude` fields. -/
def sampleInput : CreateInput :=
  { category := sampleCategory, address := "farm road 1", lat := 10,
    lng := 20, rawLatitude := some 10, rawLongitude := some 20,
    quantity := 1 }

/-- The creation payload that supplies only `lat`/`lng` (no raw
`latitude`/`longitude`). -/
def latLngOnlyInput : CreateInput :=
  { sampleInput with rawLatitude := none, rawLongitude := none }

/-- A verified, available partner whose stored latitude is exactly 0. -/
def zeroLatPartner : PartnerRec :=
  { id := 2, isVerified := true, isAvailable := true,
    latitude := some 0, longitude := some 20 }

/-- One active service in category 5 owned by the zero-latitude partner. -/
def zeroLatServices : List ServiceRec :=
  [{ category := 5, isActive := true, provider := zeroLatPartner }]

/-- A second verified, available, in-range partner. -/
def secondPartner : PartnerRec :=
  { id := 2, isVerified := true, isAvailable := true,
    latitude := some 11, longitude := some 21 }

/-- A service list where provider 1 owns two active services in category
5 (nothing in the services app forbids that) and provider 2 owns one. -/
def dupServices : List ServiceRec :=
  [{ category := 5, isActive := true, provider := samplePartner },
   { category := 5, isActive := true, provider := samplePartner },
   { category := 5, isActive := true, provider := secondPartner }]

section Lemmas

theorem acceptedCount_nil : acceptedCount [] = 0 := rfl

theorem acceptedCount_cons (r : InstantRequest) (l : List InstantRequest) :
    acceptedCount (r :: l) =
      (if r.status = RequestStatus.accepted then 1 else 0) + acceptedCount l := by
  by_cases h : r.status = RequestStatus.accepted <;>
    simp [acceptedCount, List.filter, h, Nat.add_comm]

theorem countPending_nil : countPending [] = 0 := rfl

theorem countPending_cons (r : InstantRequest) (l : List InstantRequest) :
    countPending (r :: l) =
      (if r.status = RequestStatus.pending then 1 else 0) + countPending l := by
  by_cases h : r.status = RequestStatus.pending <;>
    simp [countPending, List.filter, h, Nat.add_comm]

theorem countPending_eq_zero_iff (l : List InstantRequest) :
    countPending l = 0 ↔ ∀ r ∈ l, r.status ≠ RequestStatus.pending := by
  induction l with
  | nil => simp [countPending_nil]
  | cons r t ih =>
    rw [countPending_cons]
    by_cases h : r.status = RequestStatus.pending <;> simp [h, ih]

theorem findPending_cons (r : InstantRequest) (l : List InstantRequest) (p : Nat) :
    findPending (r :: l) p =
      if r.provider = p ∧ r.status = RequestStatus.pending then some r
      else findPending l p := by
  by_cases h : r.provider = p ∧ r.status = RequestStatus.pending
  · rw [if_pos h]
    exact List.find?_cons_of_pos _ (by simp [h.1, h.2])
  · rw [if_neg h]
    refine List.find?_cons_of_neg _ ?_
    by_cases h1 : r.provider = p <;> by_cases h2 : r.status = RequestStatus.pending <;>
      simp [h1, h2] at h ⊢

theorem findPending_eq_none_of_countPending_zero (l : List InstantRequest)
    (p : Nat) (h : countPending l = 0) : findPending l p = none := by
  rw [countPending_eq_zero_iff] at h
  induction l with
  | nil => rfl
  | cons r t ih =>
    rw [findPending_cons, if_neg]
    · exact ih fun x hx => h x (List.mem_cons_of_mem _ hx)
    · intro hc
      exact h r (List.mem_cons_self _ _) hc.2

theorem setFirstPending_cons_pos (r : InstantRequest) (t : List InstantRequest)
    (p : Nat) (st : RequestStatus) (now : Nat)
    (hm : r.provider = p ∧ r.status = RequestStatus.pending) :
    setFirstPending (r :: t) p st now =
      { r with status := st, respondedAt := some now } :: t := by
  simp [setFirstPending, hm]

theorem setFirstPending_cons_neg (r : InstantRequest) (t : List InstantRequest)
    (p : Nat) (st : RequestStatus) (now : Nat)
    (hm : ¬ (r.provider = p ∧ r.status = RequestStatus.pending)) :
    setFirstPending (r :: t) p st now = r :: setFirstPending t p st now := by
  simp [setFirstPending, hm]

theorem setFirstPending_length (l : List InstantRequest) (p : Nat)
    (st : RequestStatus) (now : Nat) :
    (setFirstPending l p st now).length = l.length := by
  induction l with
  | nil => rfl
  | cons r t ih =>
    by_cases h : r.provider = p ∧ r.status = RequestStatus.pending
    · rw [setFirstPending_cons_pos r t p st now h]
      simp
    · rw [setFirstPending_cons_neg r t p st now h]
      simpa using ih

theorem setFirstPending_get_of_not_match (l : List InstantRequest) (p : Nat)
    (st : RequestStatus) (now i : Nat) (hi : i < l.length)
    (hi' : i < (setFirstPending l p st now).length)
    (h : ¬ ((l.get ⟨i, hi⟩).provider = p ∧
        (l.get ⟨i, hi⟩).status = RequestStatus.pending)) :
    (setFirstPending l p st now).get ⟨i, hi'⟩ = l.get ⟨i, hi⟩ := by
  induction l generalizing i with
  | nil => cases hi
  | cons r t ih =>
    by_cases hm : r.provider = p ∧ r.status = RequestStatus.pending
    · cases i with
      | zero => exact absurd hm h
      | succ j =>
        have heq := setFirstPending_cons_pos r t p st now hm
        rw [List.get_of_eq heq]
        simp
    · cases i with
      | zero =>
        have heq := setFirstPending_cons_neg r t p st now hm
        rw [List.get_of_eq heq]
        simp
      | succ j =>
        have hj : j < t.length := by simpa using hi
        have hj' : j < (setFirstPending t p st now).length := by
          rw [setFirstPending_length]; exact hj
        have heq := setFirstPending_cons_neg r t p st now hm
        rw [List.get_of_eq heq]
        have := ih j hj hj' (by simpa using h)
        simpa using this

theorem mem_setFirstPending_of_findPending (l : List InstantRequest) (p : Nat)
    (st : RequestStatus) (now : Nat) (r : InstantRequest)
    (h : findPending l p = some r) :
    ∃ r' ∈ setFirstPending l p st now,
      r'.provider = p ∧ r'.status = st ∧ r'.respondedAt = some now := by
  induction l with
  | nil => cases h
  | cons x t ih =>
    rw [findPending_cons] at h
    by_cases hm : x.provider = p ∧ x.status = RequestStatus.pending
    · refine ⟨{ x with status := st, respondedAt := some now }, ?_, hm.1, rfl, rfl⟩
      simp [setFirstPending, hm]
    · rw [if_neg hm] at h
      obtain ⟨r', hr', hp⟩ := ih h
      exact ⟨r', by simp [setFirstPending, hm, hr'], hp⟩

theorem acceptedCount_setFirstPending_le (l : List InstantRequest) (p : Nat)
    (st : RequestStatus) (now : Nat) :
    acceptedCount (setFirstPending l p st now) ≤ acceptedCount l + 1 := by
  induction l with
  | nil => simp [setFirstPending, acceptedCount_nil]
  | cons r t ih =>
    by_cases hm : r.provider = p ∧ r.status = RequestStatus.pending
    · simp only [setFirstPending, if_pos hm, acceptedCount_cons]
      have hr : ¬ r.status = RequestStatus.accepted := by
        rw [hm.2]; intro hc; cases hc
      split
      · simp [hr]
        omega
      · simp [hr]
    · simp only [setFirstPending, if_neg hm, acceptedCount_cons]
      split <;> omega

theorem acceptedCount_setFirstPending_of_ne (l : List InstantRequest) (p : Nat)
    (st : RequestStatus) (now : Nat) (hst : st ≠ RequestStatus.accepted) :
    acceptedCount (setFirstPending l p st now) = acceptedCount l := by
  induction l with
  | nil => rfl
  | cons r t ih =>
    by_cases hm : r.provider = p ∧ r.status = RequestStatus.pending
    · have hr : ¬ r.status = RequestStatus.accepted := by
        rw [hm.2]; intro hc; cases hc
      simp [setFirstPending, hm, acceptedCount_cons, hst, hr]
    · simp [setFirstPending, hm, acceptedCount_cons, ih]

theorem countPending_setFirstPending (l : List InstantRequest) (p : Nat)
    (st : RequestStatus) (now : Nat) (hst : st ≠ RequestStatus.pending)
    (r : InstantRequest) (h : findPending l p = some r) :
    countPending (setFirstPending l p st now) + 1 = countPending l := by
  induction l with
  | nil => cases h
  | cons x t ih =>
    rw [findPending_cons] at h
    by_cases hm : x.provider = p ∧ x.status = RequestStatus.pending
    · simp [setFirstPending, hm, countPending_cons, hst, hm.2, Nat.add_comm]
    · rw [if_neg hm] at h
      simp only [setFirstPending, if_neg hm, countPending_cons]
      have := ih h
      omega

theorem expirePendingStamped_cons (r : InstantRequest) (t : List InstantRequest)
    (now : Nat) :
    expirePendingStamped (r :: t) now =
      (if r.status = RequestStatus.pending then
        { r with status := RequestStatus.expired, respondedAt := some now }
       else r) :: expirePendingStamped t now := by
  simp [expirePendingStamped]

theorem expirePendingPlain_cons (r : InstantRequest) (t : List InstantRequest) :
    expirePendingPlain (r :: t) =
      (if r.status = RequestStatus.pending then
        { r with status := RequestStatus.expired }
       else r) :: expirePendingPlain t := by
  simp [expirePendingPlain]

theorem acceptedCount_expirePendingStamped (l : List InstantRequest) (now : Nat) :
    acceptedCount (expirePendingStamped l now) = acceptedCount l := by
  induction l with
  | nil => rfl
  | cons r t ih =>
    rw [expirePendingStamped_cons, acceptedCount_cons, acceptedCount_cons, ih]
    by_cases h : r.status = RequestStatus.pending
    · have hr : ¬ r.status = RequestStatus.accepted := by
        rw [h]; intro hc; cases hc
      simp [h, hr]
    · simp [h]

theorem acceptedCount_expirePendingPlain (l : List InstantRequest) :
    acceptedCount (expirePendingPlain l) = acceptedCount l := by
  induction l with
  | nil => rfl
  | cons r t ih =>
    rw [expirePendingPlain_cons, acceptedCount_cons, acceptedCount_cons, ih]
    by_cases h : r.status = RequestStatus.pending
    · have hr : ¬ r.status = RequestStatus.accepted := by
        rw [h]; intro hc; cases hc
      simp [h, hr]
    · simp [h]

theorem not_pending_of_mem_expirePendingStamped (l : List InstantRequest)
    (now : Nat) (r : InstantRequest) (h : r ∈ expirePendingStamped l now) :
    r.status ≠ RequestStatus.pending := by
  rw [expirePendingStamped, List.mem_map] at h
  obtain ⟨a, _, ha⟩ := h
  by_cases hp : a.status = RequestStatus.pending
  · rw [if_pos hp] at ha
    rw [← ha]
    intro hc; cases hc
  · rw [if_neg hp] at ha
    rw [← ha]
    exact hp

theorem not_pending_of_mem_expirePendingPlain (l : List InstantRequest)
    (r : InstantRequest) (h : r ∈ expirePendingPlain l) :
    r.status ≠ RequestStatus.pending := by
  rw [expirePendingPlain, List.mem_map] at h
  obtain ⟨a, _, ha⟩ := h
  by_cases hp : a.status = RequestStatus.pending
  · rw [if_pos hp] at ha
    rw [← ha]
    intro hc; cases hc
  · rw [if_neg hp] at ha
    rw [← ha]
    exact hp

theorem mem_expirePendingStamped_of_not_pending (l : List InstantRequest)
    (now : Nat) (r : InstantRequest) (hmem : r ∈ l)
    (h : r.status ≠ RequestStatus.pending) : r ∈ expirePendingStamped l now := by
  rw [expirePendingStamped, List.mem_map]
  exact ⟨r, hmem, by rw [if_neg h]⟩

theorem expirePendingStamped_length (l : List InstantRequest) (now : Nat) :
    (expirePendingStamped l now).length = l.length := by
  simp [expirePendingStamped]

theorem expirePendingStamped_get (l : List InstantRequest) (now i : Nat)
    (hi : i < l.length) (hi' : i < (expirePendingStamped l now).length) :
    (expirePendingStamped l now).get ⟨i, hi'⟩ =
      if (l.get ⟨i, hi⟩).status = RequestStatus.pending then
        { l.get ⟨i, hi⟩ with
            status := RequestStatus.expired,
            respondedAt := some now }
      else l.get ⟨i, hi⟩ := by
  simp [expirePendingStamped]

theorem saveOtps_provider (b : BookingState) (o1 o2 : String) :
    (saveOtps b o1 o2).provider = b.provider := by
  unfold saveOtps; split <;> rfl

theorem saveOtps_status (b : BookingState) (o1 o2 : String) :
    (saveOtps b o1 o2).status = b.status := by
  unfold saveOtps; split <;> rfl

theorem saveOtps_requests (b : BookingState) (o1 o2 : String) :
    (saveOtps b o1 o2).requests = b.requests := by
  unfold saveOtps; split <;> rfl

theorem saveOtps_assignedAt (b : BookingState) (o1 o2 : String) :
    (saveOtps b o1 o2).assignedAt = b.assignedAt := by
  unfold saveOtps; split <;> rfl

theorem saveOtps_bookingType (b : BookingState) (o1 o2 : String) :
    (saveOtps b o1 o2).bookingType = b.bookingType := by
  unfold saveOtps; split <;> rfl

theorem accept_of_not_available (b : BookingState) (p now : Nat) (o1 o2 : String)
    (h : ¬ (b.bookingType = BookingType.instant ∧
        b.status = BookingStatus.searching)) :
    accept b p now o1 o2 = (AcceptOutcome.errAlreadyDecided, b) := by
  unfold accept
  rw [if_pos h]

theorem accept_of_expired (b : BookingState) (p now : Nat) (o1 o2 : String)
    (h1 : b.bookingType = BookingType.instant)
    (h2 : b.status = BookingStatus.searching)
    (h3 : isExpired b now = true) :
    accept b p now o1 o2 =
      (AcceptOutcome.errExpired, { b with status := BookingStatus.expired }) := by
  unfold accept
  rw [if_neg (by simp [h1, h2]), if_pos h3]

theorem accept_of_no_pending (b : BookingState) (p now : Nat) (o1 o2 : String)
    (h1 : b.bookingType = BookingType.instant)
    (h2 : b.status = BookingStatus.searching)
    (h3 : isExpired b now = false)
    (h4 : findPending b.requests p = none) :
    accept b p now o1 o2 = (AcceptOutcome.errNoPendingRequest, b) := by
  unfold accept
  rw [if_neg (by simp [h1, h2]), if_neg (by simp [h3]), h4]

theorem accept_of_pending (b : BookingState) (p now : Nat) (o1 o2 : String)
    (h1 : b.bookingType = BookingType.instant)
    (h2 : b.status = BookingStatus.searching)
    (h3 : isExpired b now = false)
    (r : InstantRequest) (h4 : findPending b.requests p = some r) :
    accept b p now o1 o2 =
      (AcceptOutcome.ok,
        { saveOtps { b with
            provider := some p,
            status := BookingStatus.confirmed } o1 o2 with
          requests := expirePendingStamped
            (setFirstPending b.requests p RequestStatus.accepted now) now }) := by
  unfold accept
  rw [if_neg (by simp [h1, h2]), if_neg (by simp [h3]), h4]
  simp only [saveOtps_requests]

theorem accept_snd_status (b : BookingState) (p now : Nat) (o1 o2 : String) :
    (accept b p now o1 o2).2.status = b.status ∨
    (accept b p now o1 o2).2.status = BookingStatus.expired ∨
    (accept b p now o1 o2).2.status = BookingStatus.confirmed := by
  by_cases h : b.bookingType = BookingType.instant ∧
      b.status = BookingStatus.searching
  · by_cases h3 : isExpired b now = true
    · rw [accept_of_expired b p now o1 o2 h.1 h.2 h3]
      right; left; rfl
    · cases h4 : findPending b.requests p with
      | none =>
        rw [accept_of_no_pending b p now o1 o2 h.1 h.2 (by simpa using h3) h4]
        left; rfl
      | some r =>
        rw [accept_of_pending b p now o1 o2 h.1 h.2 (by simpa using h3) r h4]
        right; right
        exact saveOtps_status _ o1 o2
  · rw [accept_of_not_available b p now o1 o2 h]
    left; rfl

theorem decline_of_no_pending (b : BookingState) (p now : Nat)
    (h : findPending b.requests p = none) :
    decline b p now = (DeclineOutcome.errNoPendingRequest, b) := by
  unfold decline
  rw [h]

theorem decline_of_pending_zero (b : BookingState) (p now : Nat)
    (r : InstantRequest) (h : findPending b.requests p = some r)
    (hz : countPending (setFirstPending b.requests p RequestStatus.declined now) = 0) :
    decline b p now =
      (DeclineOutcome.ok,
        { b with
          requests := setFirstPending b.requests p RequestStatus.declined now,
          status := BookingStatus.expired }) := by
  unfold decline
  rw [h]
  simp [hz]

theorem decline_of_pending_pos (b : BookingState) (p now : Nat)
    (r : InstantRequest) (h : findPending b.requests p = some r)
    (hz : countPending (setFirstPending b.requests p RequestStatus.declined now) ≠ 0) :
    decline b p now =
      (DeclineOutcome.ok,
        { b with
          requests := setFirstPending b.requests p RequestStatus.declined now }) := by
  unfold decline
  rw [h]
  simp only [if_neg hz]

theorem decline_snd_status (b : BookingState) (p now : Nat) :
    (decline b p now).2.status = b.status ∨
    (decline b p now).2.status = BookingStatus.expired := by
  cases h : findPending b.requests p with
  | none => rw [decline_of_no_pending b p now h]; left; rfl
  | some r =>
    by_cases hz :
        countPending (setFirstPending b.requests p RequestStatus.declined now) = 0
    · rw [decline_of_pending_zero b p now r h hz]; right; rfl
    · rw [decline_of_pending_pos b p now r h hz]; left; rfl

theorem sweep_of_ne_searching (b : BookingState) (now : Nat)
    (h : b.status ≠ BookingStatus.searching) : sweep b now = b := by
  unfold sweep
  rw [if_neg (by simp [h])]

theorem sweep_snd_status (b : BookingState) (now : Nat) :
    (sweep b now).status = b.status ∨
    (sweep b now).status = BookingStatus.expired := by
  unfold sweep
  split
  · right; rfl
  · left; rfl

theorem applyOp_ne_searching (b : BookingState) (op : Op)
    (h : b.status ≠ BookingStatus.searching) :
    (applyOp b op).status ≠ BookingStatus.searching := by
  cases op with
  | acceptOp p now o1 o2 =>
    have := accept_of_not_available b p now o1 o2 (fun hc => h hc.2)
    simp only [applyOp, this]
    exact h
  | declineOp p now =>
    rcases decline_snd_status b p now with hs | hs <;>
      simp only [applyOp, hs]
    · exact h
    · intro hc; cases hc
  | sweepOp now =>
    rw [applyOp, sweep_of_ne_searching b now h]
    exact h

theorem run_ne_searching (b : BookingState) (ops : List Op)
    (h : b.status ≠ BookingStatus.searching) :
    (run b ops).status ≠ BookingStatus.searching := by
  induction ops generalizing b with
  | nil => exact h
  | cons op t ih =>
    rw [run, List.foldl_cons]
    exact ih _ (applyOp_ne_searching b op h)

theorem accept_fst_of_ne_searching (b : BookingState) (p now : Nat)
    (o1 o2 : String) (h : b.status ≠ BookingStatus.searching) :
    (accept b p now o1 o2).1 = AcceptOutcome.errAlreadyDecided := by
  rw [accept_of_not_available b p now o1 o2 (fun hc => h hc.2)]


theorem acceptInv_accept (b : BookingState) (p now : Nat) (o1 o2 : String)
    (h : AcceptInv b) : AcceptInv (accept b p now o1 o2).2 := by
  by_cases hc : b.bookingType = BookingType.instant ∧
      b.status = BookingStatus.searching
  · by_cases h3 : isExpired b now = true
    · rw [accept_of_expired b p now o1 o2 hc.1 hc.2 h3]
      exact ⟨fun hs => (nomatch hs), h.2⟩
    · cases h4 : findPending b.requests p with
      | none =>
        rw [accept_of_no_pending b p now o1 o2 hc.1 hc.2 (by simpa using h3) h4]
        exact h
      | some r =>
        rw [accept_of_pending b p now o1 o2 hc.1 hc.2 (by simpa using h3) r h4]
        constructor
        · intro hs
          rw [saveOtps_status] at hs
          cases hs
        · simp only [acceptedCount_expirePendingStamped]
          have h0 := h.1 hc.2
          have := acceptedCount_setFirstPending_le b.requests p
            RequestStatus.accepted now
          omega
  · rw [accept_of_not_available b p now o1 o2 hc]
    exact h

theorem acceptInv_decline (b : BookingState) (p now : Nat)
    (h : AcceptInv b) : AcceptInv (decline b p now).2 := by
  cases h4 : findPending b.requests p with
  | none => rw [decline_of_no_pending b p now h4]; exact h
  | some r =>
    have hcount := acceptedCount_setFirstPending_of_ne b.requests p
      RequestStatus.declined now (by intro hc; cases hc)
    by_cases hz :
        countPending (setFirstPending b.requests p RequestStatus.declined now) = 0
    · rw [decline_of_pending_zero b p now r h4 hz]
      exact ⟨fun hs => (nomatch hs), by rw [hcount]; exact h.2⟩
    · rw [decline_of_pending_pos b p now r h4 hz]
      exact ⟨fun hs => by rw [hcount]; exact h.1 hs, by rw [hcount]; exact h.2⟩

theorem acceptInv_sweep (b : BookingState) (now : Nat)
    (h : AcceptInv b) : AcceptInv (sweep b now) := by
  unfold sweep
  split
  · refine ⟨fun hs => (nomatch hs), ?_⟩
    simp only [acceptedCount_expirePendingPlain]
    exact h.2
  · exact h

theorem acceptInv_applyOp (b : BookingState) (op : Op)
    (h : AcceptInv b) : AcceptInv (applyOp b op) := by
  cases op with
  | acceptOp p now o1 o2 => exact acceptInv_accept b p now o1 o2 h
  | declineOp p now => exact acceptInv_decline b p now h
  | sweepOp now => exact acceptInv_sweep b now h

theorem acceptInv_run (b : BookingState) (ops : List Op)
    (h : AcceptInv b) : AcceptInv (run b ops) := by
  induction ops generalizing b with
  | nil => exact h
  | cons op t ih =>
    rw [run, List.foldl_cons]
    exact ih _ (acceptInv_applyOp b op h)

theorem mem_eligibleServices_iff (s : ServiceRec) (services : List ServiceRec)
    (cat : Nat) :
    s ∈ eligibleServices services cat ↔
      s ∈ services ∧ s.category = cat ∧ s.isActive = true ∧
        s.provider.isVerified = true ∧ s.provider.isAvailable = true := by
  simp [eligibleServices, List.mem_filter, and_assoc]

theorem broadcastEntry_some_elim (dist : Rat → Rat → Rat → Rat → Rat)
    (cLat cLon radius : Rat) (s : ServiceRec) (r : InstantRequest)
    (h : broadcastEntry dist cLat cLon radius s = some r) :
    truthy s.provider.latitude = true ∧ truthy s.provider.longitude = true ∧
    dist cLat cLon (s.provider.latitude.getD 0) (s.provider.longitude.getD 0)
      ≤ radius ∧
    r = { provider := s.provider.id, status := RequestStatus.pending,
          respondedAt := none,
          distanceKm := round2 (dist cLat cLon (s.provider.latitude.getD 0)
            (s.provider.longitude.getD 0)) } := by
  unfold broadcastEntry at h
  by_cases h1 : truthy s.provider.latitude && truthy s.provider.longitude
  · rw [if_pos h1] at h
    by_cases h2 : dist cLat cLon (s.provider.latitude.getD 0)
        (s.provider.longitude.getD 0) ≤ radius
    · rw [if_pos h2] at h
      have h1' := h1
      rw [Bool.and_eq_true] at h1'
      exact ⟨h1'.1, h1'.2, h2, (Option.some.inj h).symm⟩
    · rw [if_neg h2] at h
      cases h
  · rw [if_neg h1] at h
    cases h

theorem broadcastEntry_some_intro (dist : Rat → Rat → Rat → Rat → Rat)
    (cLat cLon radius : Rat) (s : ServiceRec)
    (hlat : truthy s.provider.latitude = true)
    (hlon : truthy s.provider.longitude = true)
    (hd : dist cLat cLon (s.provider.latitude.getD 0)
      (s.provider.longitude.getD 0) ≤ radius) :
    broadcastEntry dist cLat cLon radius s =
      some { provider := s.provider.id, status := RequestStatus.pending,
             respondedAt := none,
             distanceKm := round2 (dist cLat cLon (s.provider.latitude.getD 0)
               (s.provider.longitude.getD 0)) } := by
  unfold broadcastEntry
  rw [if_pos (by rw [hlat, hlon]; rfl), if_pos hd]

theorem broadcastEntry_some_provider (dist : Rat → Rat → Rat → Rat → Rat)
    (cLat cLon radius : Rat) (s : ServiceRec) (r : InstantRequest)
    (h : broadcastEntry dist cLat cLon radius s = some r) :
    r.provider = s.provider.id := by
  rw [(broadcastEntry_some_elim dist cLat cLon radius s r h).2.2.2]

theorem providerCount_nil (q : Nat) : providerCount [] q = 0 := rfl

theorem providerCount_cons (r : InstantRequest) (l : List InstantRequest)
    (q : Nat) :
    providerCount (r :: l) q =
      (if r.provider = q then 1 else 0) + providerCount l q := by
  by_cases h : r.provider = q <;>
    simp [providerCount, List.filter, h, Nat.add_comm]

theorem providerCount_filterMap_entry_zero (dist : Rat → Rat → Rat → Rat → Rat)
    (cLat cLon radius : Rat) (l : List ServiceRec) (q : Nat)
    (h : ∀ s ∈ l, s.provider.id ≠ q) :
    providerCount (l.filterMap (broadcastEntry dist cLat cLon radius)) q = 0 := by
  induction l with
  | nil => rfl
  | cons x t ih =>
    rw [List.filterMap_cons]
    cases he : broadcastEntry dist cLat cLon radius x with
    | none => exact ih fun s hs => h s (List.mem_cons_of_mem _ hs)
    | some r =>
      rw [providerCount_cons,
        broadcastEntry_some_provider dist cLat cLon radius x r he,
        if_neg (h x (List.mem_cons_self _ _)),
        ih fun s hs => h s (List.mem_cons_of_mem _ hs)]

theorem providerCount_filterMap_entry_one (dist : Rat → Rat → Rat → Rat → Rat)
    (cLat cLon radius : Rat) (l : List ServiceRec) (s : ServiceRec)
    (r : InstantRequest) (hs : s ∈ l)
    (hpw : l.Pairwise (fun a b => a.provider.id ≠ b.provider.id))
    (he : broadcastEntry dist cLat cLon radius s = some r) :
    providerCount (l.filterMap (broadcastEntry dist cLat cLon radius))
      s.provider.id = 1 := by
  induction l with
  | nil => cases hs
  | cons x t ih =>
    cases hpw with
    | cons hx hpw' =>
      rw [List.filterMap_cons]
      rcases List.mem_cons.mp hs with heq | hst
      · subst heq
        rw [he, providerCount_cons,
          broadcastEntry_some_provider dist cLat cLon radius s r he,
          if_pos rfl,
          providerCount_filterMap_entry_zero dist cLat cLon radius t
            s.provider.id fun y hy => (hx y hy).symm]
      · cases hex : broadcastEntry dist cLat cLon radius x with
        | none => exact ih hst hpw'
        | some rx =>
          rw [providerCount_cons,
            broadcastEntry_some_provider dist cLat cLon radius x rx hex,
            if_neg (hx s hst), ih hst hpw']

theorem of_mem_broadcastRequests (dist : Rat → Rat → Rat → Rat → Rat)
    (services : List ServiceRec) (cat : Nat) (cLat cLon radius : Rat)
    (r : InstantRequest)
    (h : r ∈ broadcastRequests dist services cat cLat cLon radius) :
    ∃ s ∈ services, s.category = cat ∧ s.isActive = true ∧
      s.provider.isVerified = true ∧ s.provider.isAvailable = true ∧
      truthy s.provider.latitude = true ∧ truthy s.provider.longitude = true ∧
      dist cLat cLon (s.provider.latitude.getD 0)
        (s.provider.longitude.getD 0) ≤ radius ∧
      r.provider = s.provider.id ∧ r.status = RequestStatus.pending ∧
      r.respondedAt = none ∧
      r.distanceKm = round2 (dist cLat cLon (s.provider.latitude.getD 0)
        (s.provider.longitude.getD 0)) := by
  rw [broadcastRequests, List.mem_filterMap] at h
  obtain ⟨s, hs, he⟩ := h
  obtain ⟨hmem, hcat, hact, hver, hav⟩ :=
    (mem_eligibleServices_iff s services cat).mp hs
  obtain ⟨hlat, hlon, hd, hr⟩ :=
    broadcastEntry_some_elim dist cLat cLon radius s r he
  exact ⟨s, hmem, hcat, hact, hver, hav, hlat, hlon, hd,
    by rw [hr], by rw [hr], by rw [hr], by rw [hr]⟩

theorem instantCreate_invalid (dist : Rat → Rat → Rat → Rat → Rat)
    (services : List ServiceRec) (inp : CreateInput) (now : Nat)
    (hv : instantCreateValid inp = false) :
    instantCreate dist services inp now = (CreateOutcome.invalid, none) := by
  unfold instantCreate
  rw [if_pos (by simp [hv])]

theorem hasProvider_nil (q : Nat) : hasProvider [] q = false := rfl

theorem hasProvider_append (l1 l2 : List InstantRequest) (q : Nat) :
    hasProvider (l1 ++ l2) q = (hasProvider l1 q || hasProvider l2 q) := by
  simp [hasProvider]

theorem hasProvider_singleton (r : InstantRequest) (q : Nat) :
    hasProvider [r] q = decide (r.provider = q) := by
  simp [hasProvider]

theorem broadcastLoop_cons_none (dist : Rat → Rat → Rat → Rat → Rat)
    (cLat cLon radius : Rat) (s : ServiceRec) (rest : List ServiceRec)
    (acc : List InstantRequest)
    (h : broadcastEntry dist cLat cLon radius s = none) :
    broadcastLoop dist cLat cLon radius (s :: rest) acc =
      broadcastLoop dist cLat cLon radius rest acc := by
  simp only [broadcastLoop, h]

theorem broadcastLoop_cons_some_dup (dist : Rat → Rat → Rat → Rat → Rat)
    (cLat cLon radius : Rat) (s : ServiceRec) (rest : List ServiceRec)
    (acc : List InstantRequest) (r : InstantRequest)
    (h : broadcastEntry dist cLat cLon radius s = some r)
    (hdup : hasProvider acc r.provider = true) :
    broadcastLoop dist cLat cLon radius (s :: rest) acc =
      BroadcastResult.integrityError acc := by
  simp only [broadcastLoop, h, hdup, if_pos]

theorem broadcastLoop_cons_some_new (dist : Rat → Rat → Rat → Rat → Rat)
    (cLat cLon radius : Rat) (s : ServiceRec) (rest : List ServiceRec)
    (acc : List InstantRequest) (r : InstantRequest)
    (h : broadcastEntry dist cLat cLon radius s = some r)
    (hdup : hasProvider acc r.provider = false) :
    broadcastLoop dist cLat cLon radius (s :: rest) acc =
      broadcastLoop dist cLat cLon radius rest (acc ++ [r]) := by
  simp only [broadcastLoop, h, hdup]
  rw [if_neg (by simp)]

/-- When the loop runs to completion, the rows it inserted are exactly the
attempted sequence `broadcastRequests` (appended to `acc`). -/
theorem broadcastLoop_ok_eq (dist : Rat → Rat → Rat → Rat → Rat)
    (cLat cLon radius : Rat) (l : List ServiceRec)
    (acc reqs : List InstantRequest)
    (h : broadcastLoop dist cLat cLon radius l acc = BroadcastResult.ok reqs) :
    reqs = acc ++ l.filterMap (broadcastEntry dist cLat cLon radius) := by
  induction l generalizing acc with
  | nil =>
    simp only [broadcastLoop] at h
    injection h with h'
    rw [← h']
    simp
  | cons s rest ih =>
    cases hentry : broadcastEntry dist cLat cLon radius s with
    | none =>
      rw [broadcastLoop_cons_none dist cLat cLon radius s rest acc hentry] at h
      simp only [List.filterMap_cons, hentry]
      exact ih acc h
    | some r =>
      simp only [List.filterMap_cons, hentry]
      by_cases hdup : hasProvider acc r.provider = true
      · rw [broadcastLoop_cons_some_dup dist cLat cLon radius s rest acc r
          hentry hdup] at h
        exact BroadcastResult.noConfusion h
      · rw [broadcastLoop_cons_some_new dist cLat cLon radius s rest acc r
          hentry (by simpa using hdup)] at h
        rw [ih (acc ++ [r]) h]
        simp

/-- Every row the loop leaves behind — completed or aborted — is one of
the attempted rows (or was already in `acc`). -/
theorem mem_rows_broadcastLoop (dist : Rat → Rat → Rat → Rat → Rat)
    (cLat cLon radius : Rat) (l : List ServiceRec)
    (acc : List InstantRequest) (r : InstantRequest)
    (h : r ∈ (broadcastLoop dist cLat cLon radius l acc).rows) :
    r ∈ acc ∨ r ∈ l.filterMap (broadcastEntry dist cLat cLon radius) := by
  induction l generalizing acc with
  | nil =>
    simp only [broadcastLoop, BroadcastResult.rows] at h
    exact Or.inl h
  | cons s rest ih =>
    cases hentry : broadcastEntry dist cLat cLon radius s with
    | none =>
      rw [broadcastLoop_cons_none dist cLat cLon radius s rest acc hentry] at h
      simp only [List.filterMap_cons, hentry]
      exact ih acc h
    | some r' =>
      simp only [List.filterMap_cons, hentry]
      by_cases hdup : hasProvider acc r'.provider = true
      · rw [broadcastLoop_cons_some_dup dist cLat cLon radius s rest acc r'
          hentry hdup] at h
        simp only [BroadcastResult.rows] at h
        exact Or.inl h
      · rw [broadcastLoop_cons_some_new dist cLat cLon radius s rest acc r'
          hentry (by simpa using hdup)] at h
        rcases ih (acc ++ [r']) h with hmem | hmem
        · rcases List.mem_append.mp hmem with h1 | h1
          · exact Or.inl h1
          · right
            rw [List.mem_singleton] at h1
            rw [h1]
            exact List.mem_cons_self _ _
        · right
          exact List.mem_cons_of_mem _ hmem

/-- When the loop aborts with IntegrityError, the rows it persisted are an
initial segment of the attempted sequence. -/
theorem broadcastLoop_error_prefix (dist : Rat → Rat → Rat → Rat → Rat)
    (cLat cLon radius : Rat) (l : List ServiceRec)
    (acc pers : List InstantRequest)
    (h : broadcastLoop dist cLat cLon radius l acc =
      BroadcastResult.integrityError pers) :
    ∃ t, acc ++ l.filterMap (broadcastEntry dist cLat cLon radius) =
      pers ++ t := by
  induction l generalizing acc with
  | nil =>
    simp only [broadcastLoop] at h
    exact BroadcastResult.noConfusion h
  | cons s rest ih =>
    cases hentry : broadcastEntry dist cLat cLon radius s with
    | none =>
      rw [broadcastLoop_cons_none dist cLat cLon radius s rest acc hentry] at h
      simp only [List.filterMap_cons, hentry]
      exact ih acc h
    | some r =>
      simp only [List.filterMap_cons, hentry]
      by_cases hdup : hasProvider acc r.provider = true
      · rw [broadcastLoop_cons_some_dup dist cLat cLon radius s rest acc r
          hentry hdup] at h
        injection h with h'
        refine ⟨r :: rest.filterMap (broadcastEntry dist cLat cLon radius), ?_⟩
        rw [h']
      · rw [broadcastLoop_cons_some_new dist cLat cLon radius s rest acc r
          hentry (by simpa using hdup)] at h
        obtain ⟨t, ht⟩ := ih (acc ++ [r]) h
        refine ⟨t, ?_⟩
        rw [← ht]
        simp

/-- With no in-range provider at all, the loop completes with no rows. -/
theorem broadcastLoop_of_filterMap_nil (dist : Rat → Rat → Rat → Rat → Rat)
    (cLat cLon radius : Rat) (l : List ServiceRec)
    (acc : List InstantRequest)
    (h : l.filterMap (broadcastEntry dist cLat cLon radius) = []) :
    broadcastLoop dist cLat cLon radius l acc = BroadcastResult.ok acc := by
  induction l with
  | nil => rfl
  | cons s rest ih =>
    have hs : broadcastEntry dist cLat cLon radius s = none :=
      List.filterMap_eq_nil_iff.mp h s (List.mem_cons_self _ _)
    simp only [List.filterMap_cons, hs] at h
    rw [broadcastLoop_cons_none dist cLat cLon radius s rest acc hs]
    exact ih h

/-- When no provider appears twice among the services, the loop never hits
the uniqueness constraint and completes with the full attempted list. -/
theorem broadcastLoop_eq_ok (dist : Rat → Rat → Rat → Rat → Rat)
    (cLat cLon radius : Rat) (l : List ServiceRec)
    (acc : List InstantRequest)
    (hacc : ∀ s ∈ l, ∀ r, broadcastEntry dist cLat cLon radius s = some r →
      hasProvider acc r.provider = false)
    (hpw : l.Pairwise (fun a c => a.provider.id ≠ c.provider.id)) :
    broadcastLoop dist cLat cLon radius l acc =
      BroadcastResult.ok
        (acc ++ l.filterMap (broadcastEntry dist cLat cLon radius)) := by
  induction l generalizing acc with
  | nil => simp [broadcastLoop]
  | cons s rest ih =>
    cases hpw with
    | cons hx hpw' =>
      cases hentry : broadcastEntry dist cLat cLon radius s with
      | none =>
        rw [broadcastLoop_cons_none dist cLat cLon radius s rest acc hentry]
        simp only [List.filterMap_cons, hentry]
        exact ih acc
          (fun s' hs' r hr => hacc s' (List.mem_cons_of_mem _ hs') r hr) hpw'
      | some r =>
        have hnew : hasProvider acc r.provider = false :=
          hacc s (List.mem_cons_self _ _) r hentry
        have hacc' : ∀ s' ∈ rest, ∀ r',
            broadcastEntry dist cLat cLon radius s' = some r' →
            hasProvider (acc ++ [r]) r'.provider = false := by
          intro s' hs' r' hr'
          have h2 : r.provider ≠ r'.provider := by
            rw [broadcastEntry_some_provider dist cLat cLon radius s r hentry,
              broadcastEntry_some_provider dist cLat cLon radius s' r' hr']
            exact hx s' hs'
          rw [hasProvider_append, hasProvider_singleton,
            hacc s' (List.mem_cons_of_mem _ hs') r' hr']
          simp [h2]
        rw [broadcastLoop_cons_some_new dist cLat cLon radius s rest acc r
          hentry hnew, ih (acc ++ [r]) hacc' hpw']
        simp only [List.filterMap_cons, hentry]
        simp

theorem instantCreate_loop_error (dist : Rat → Rat → Rat → Rat → Rat)
    (services : List ServiceRec) (inp : CreateInput) (now : Nat)
    (hv : instantCreateValid inp = true) (pers : List InstantRequest)
    (hl : broadcastLoop dist (inp.rawLatitude.getD 0) (inp.rawLongitude.getD 0)
      ((inp.category.instantSearchRadiusKm : Nat) : Rat)
      (eligibleServices services inp.category.id) [] =
        BroadcastResult.integrityError pers) :
    instantCreate dist services inp now =
      (CreateOutcome.serverError,
        some { freshInstantBooking inp now with requests := pers }) := by
  unfold instantCreate
  rw [if_neg (by simp [hv])]
  simp only [hl]

theorem instantCreate_loop_ok_zero (dist : Rat → Rat → Rat → Rat → Rat)
    (services : List ServiceRec) (inp : CreateInput) (now : Nat)
    (hv : instantCreateValid inp = true)
    (hl : broadcastLoop dist (inp.rawLatitude.getD 0) (inp.rawLongitude.getD 0)
      ((inp.category.instantSearchRadiusKm : Nat) : Rat)
      (eligibleServices services inp.category.id) [] =
        BroadcastResult.ok []) :
    instantCreate dist services inp now =
      (CreateOutcome.errNoProvidersNearby,
        some { freshInstantBooking inp now with
                 status := BookingStatus.expired }) := by
  unfold instantCreate
  rw [if_neg (by simp [hv])]
  simp only [hl]
  simp

theorem instantCreate_loop_ok_pos (dist : Rat → Rat → Rat → Rat → Rat)
    (services : List ServiceRec) (inp : CreateInput) (now : Nat)
    (hv : instantCreateValid inp = true) (reqs : List InstantRequest)
    (hl : broadcastLoop dist (inp.rawLatitude.getD 0) (inp.rawLongitude.getD 0)
      ((inp.category.instantSearchRadiusKm : Nat) : Rat)
      (eligibleServices services inp.category.id) [] =
        BroadcastResult.ok reqs)
    (hne : reqs ≠ []) :
    instantCreate dist services inp now =
      (CreateOutcome.created reqs.length,
        some { freshInstantBooking inp now with requests := reqs }) := by
  unfold instantCreate
  rw [if_neg (by simp [hv])]
  simp only [hl]
  rw [if_neg (by simpa [List.length_eq_zero] using hne)]

theorem instantCreate_zero (dist : Rat → Rat → Rat → Rat → Rat)
    (services : List ServiceRec) (inp : CreateInput) (now : Nat)
    (hv : instantCreateValid inp = true)
    (hz : broadcastRequests dist services inp.category.id
      (inp.rawLatitude.getD 0) (inp.rawLongitude.getD 0)
      ((inp.category.instantSearchRadiusKm : Nat) : Rat) = []) :
    instantCreate dist services inp now =
      (CreateOutcome.errNoProvidersNearby,
        some { freshInstantBooking inp now with
                 status := BookingStatus.expired }) := by
  refine instantCreate_loop_ok_zero dist services inp now hv ?_
  exact broadcastLoop_of_filterMap_nil dist (inp.rawLatitude.getD 0)
    (inp.rawLongitude.getD 0) ((inp.category.instantSearchRadiusKm : Nat) : Rat)
    (eligibleServices services inp.category.id) [] hz

theorem instantCreate_pos (dist : Rat → Rat → Rat → Rat → Rat)
    (services : List ServiceRec) (inp : CreateInput) (now : Nat)
    (hv : instantCreateValid inp = true)
    (hpw : (eligibleServices services inp.category.id).Pairwise
      (fun a c => a.provider.id ≠ c.provider.id))
    (hz : broadcastRequests dist services inp.category.id
      (inp.rawLatitude.getD 0) (inp.rawLongitude.getD 0)
      ((inp.category.instantSearchRadiusKm : Nat) : Rat) ≠ []) :
    instantCreate dist services inp now =
      (CreateOutcome.created (broadcastRequests dist services inp.category.id
        (inp.rawLatitude.getD 0) (inp.rawLongitude.getD 0)
        ((inp.category.instantSearchRadiusKm : Nat) : Rat)).length,
       some { freshInstantBooking inp now with
                requests := broadcastRequests dist services inp.category.id
                  (inp.rawLatitude.getD 0) (inp.rawLongitude.getD 0)
                  ((inp.category.instantSearchRadiusKm : Nat) : Rat) }) := by
  have hloop := broadcastLoop_eq_ok dist (inp.rawLatitude.getD 0)
    (inp.rawLongitude.getD 0) ((inp.category.instantSearchRadiusKm : Nat) : Rat)
    (eligibleServices services inp.category.id) []
    (fun _ _ _ _ => rfl) hpw
  rw [List.nil_append] at hloop
  exact instantCreate_loop_ok_pos dist services inp now hv _ hloop hz

theorem isExpired_true_elim (b : BookingState) (now : Nat)
    (h : isExpired b now = true) :
    b.bookingType = BookingType.instant ∧
    b.status = BookingStatus.searching ∧
    ∃ e, b.expiresAt = some e ∧ e < now := by
  unfold isExpired at h
  by_cases ht : b.bookingType = BookingType.instant
  · rw [if_pos ht] at h
    cases he : b.expiresAt with
    | none => rw [he] at h; cases h
    | some e =>
      rw [he] at h
      rw [Bool.and_eq_true, decide_eq_true_iff, decide_eq_true_iff] at h
      exact ⟨ht, h.2, e, rfl, h.1⟩
  · rw [if_neg ht] at h
    cases h

theorem findPending_some_mem (l : List InstantRequest) (p : Nat)
    (r : InstantRequest) (h : findPending l p = some r) :
    r ∈ l ∧ r.provider = p ∧ r.status = RequestStatus.pending := by
  have hmem := List.mem_of_find?_eq_some h
  have hpred := List.find?_some h
  rw [Bool.and_eq_true, decide_eq_true_iff, decide_eq_true_iff] at hpred
  exact ⟨hmem, hpred.1, hpred.2⟩

theorem countPending_ne_zero_of_findPending (l : List InstantRequest) (p : Nat)
    (r : InstantRequest) (h : findPending l p = some r) :
    countPending l ≠ 0 := by
  obtain ⟨hmem, _, hp⟩ := findPending_some_mem l p r h
  intro hz
  exact (countPending_eq_zero_iff l).mp hz r hmem hp

theorem accept_ok_conditions (b : BookingState) (p now : Nat) (o1 o2 : String)
    (h : (accept b p now o1 o2).1 = AcceptOutcome.ok) :
    b.bookingType = BookingType.instant ∧ b.status = BookingStatus.searching ∧
    isExpired b now = false ∧ ∃ r, findPending b.requests p = some r := by
  by_cases hc : b.bookingType = BookingType.instant ∧
      b.status = BookingStatus.searching
  · by_cases h3 : isExpired b now = true
    · rw [accept_of_expired b p now o1 o2 hc.1 hc.2 h3] at h
      cases h
    · cases h4 : findPending b.requests p with
      | none =>
        rw [accept_of_no_pending b p now o1 o2 hc.1 hc.2
          (by simpa using h3) h4] at h
        cases h
      | some r =>
        exact ⟨hc.1, hc.2, by simpa using h3, r, rfl⟩
  · rw [accept_of_not_available b p now o1 o2 hc] at h
    cases h


theorem providerInv_accept (b : BookingState) (p now : Nat) (o1 o2 : String)
    (h : ProviderInv b) : ProviderInv (accept b p now o1 o2).2 := by
  by_cases hc : b.bookingType = BookingType.instant ∧
      b.status = BookingStatus.searching
  · by_cases h3 : isExpired b now = true
    · rw [accept_of_expired b p now o1 o2 hc.1 hc.2 h3]
      rcases h with ⟨hp, _⟩ | ⟨q, _, hst, _⟩
      · exact Or.inl ⟨hp, Or.inr rfl⟩
      · rw [hc.2] at hst; cases hst
    · cases h4 : findPending b.requests p with
      | none =>
        rw [accept_of_no_pending b p now o1 o2 hc.1 hc.2
          (by simpa using h3) h4]
        exact h
      | some r =>
        rw [accept_of_pending b p now o1 o2 hc.1 hc.2 (by simpa using h3) r h4]
        refine Or.inr ⟨p, ?_, ?_, ?_⟩
        · rw [saveOtps_provider]
        · rw [saveOtps_status]
        · rw [countPending_eq_zero_iff]
          exact fun x hx => not_pending_of_mem_expirePendingStamped _ now x hx
  · rw [accept_of_not_available b p now o1 o2 hc]
    exact h

theorem providerInv_decline (b : BookingState) (p now : Nat)
    (h : ProviderInv b) : ProviderInv (decline b p now).2 := by
  cases h4 : findPending b.requests p with
  | none => rw [decline_of_no_pending b p now h4]; exact h
  | some r =>
    have hne := countPending_ne_zero_of_findPending b.requests p r h4
    rcases h with ⟨hp, hst⟩ | ⟨q, _, _, hz⟩
    · by_cases hz :
          countPending (setFirstPending b.requests p RequestStatus.declined now)
            = 0
      · rw [decline_of_pending_zero b p now r h4 hz]
        exact Or.inl ⟨hp, Or.inr rfl⟩
      · rw [decline_of_pending_pos b p now r h4 hz]
        exact Or.inl ⟨hp, hst⟩
    · exact absurd hz hne

theorem providerInv_sweep (b : BookingState) (now : Nat)
    (h : ProviderInv b) : ProviderInv (sweep b now) := by
  unfold sweep
  split
  · rename_i hcond
    rcases h with ⟨hp, _⟩ | ⟨q, _, hst, _⟩
    · exact Or.inl ⟨hp, Or.inr rfl⟩
    · rw [hcond.2.1] at hst; cases hst
  · exact h

theorem providerInv_applyOp (b : BookingState) (op : Op)
    (h : ProviderInv b) : ProviderInv (applyOp b op) := by
  cases op with
  | acceptOp p now o1 o2 => exact providerInv_accept b p now o1 o2 h
  | declineOp p now => exact providerInv_decline b p now h
  | sweepOp now => exact providerInv_sweep b now h

theorem providerInv_run (b : BookingState) (ops : List Op)
    (h : ProviderInv b) : ProviderInv (run b ops) := by
  induction ops generalizing b with
  | nil => exact h
  | cons op t ih =>
    rw [run, List.foldl_cons]
    exact ih _ (providerInv_applyOp b op h)

theorem providerInv_instantCreate (dist : Rat → Rat → Rat → Rat → Rat)
    (services : List ServiceRec) (inp : CreateInput) (now : Nat)
    (st : BookingState) (h : (instantCreate dist services inp now).2 = some st) :
    ProviderInv st := by
  by_cases hv : instantCreateValid inp = true
  · cases hloop : broadcastLoop dist (inp.rawLatitude.getD 0)
        (inp.rawLongitude.getD 0)
        ((inp.category.instantSearchRadiusKm : Nat) : Rat)
        (eligibleServices services inp.category.id) [] with
    | integrityError pers =>
      rw [instantCreate_loop_error dist services inp now hv pers hloop] at h
      rw [← Option.some.inj h]
      exact Or.inl ⟨rfl, Or.inl rfl⟩
    | ok reqs =>
      by_cases hz : reqs = []
      · rw [hz] at hloop
        rw [instantCreate_loop_ok_zero dist services inp now hv hloop] at h
        rw [← Option.some.inj h]
        exact Or.inl ⟨rfl, Or.inr rfl⟩
      · rw [instantCreate_loop_ok_pos dist services inp now hv reqs
          hloop hz] at h
        rw [← Option.some.inj h]
        exact Or.inl ⟨rfl, Or.inl rfl⟩
  · rw [instantCreate_invalid dist services inp now (by simpa using hv)] at h
    cases h

theorem providerActionValid_false_of_terminal (b : BookingState)
    (a : ProviderAction) (otp rejectionReason : Option String)
    (hterm : b.status = BookingStatus.expired ∨
      b.status = BookingStatus.cancelled ∨
      b.status = BookingStatus.completed ∨
      b.status = BookingStatus.rejected) :
    providerActionValid b a otp rejectionReason = false := by
  have h1 : b.status ≠ BookingStatus.pending := by
    rcases hterm with h | h | h | h <;> rw [h] <;> intro hc <;> cases hc
  have h2 : b.status ≠ BookingStatus.confirmed := by
    rcases hterm with h | h | h | h <;> rw [h] <;> intro hc <;> cases hc
  have h3 : b.status ≠ BookingStatus.inProgress := by
    rcases hterm with h | h | h | h <;> rw [h] <;> intro hc <;> cases hc
  cases a <;> simp [providerActionValid, h1, h2, h3]

end Lemmas


/-- C1: single-winner — along any serialized trace of Accept, Decline and
expiry operations at most one request of a booking ever reaches
`ACCEPTED`; a successful Accept assigns the caller as provider, confirms
the booking, marks the caller's request `ACCEPTED` with `responded_at`
set, expires every other still-`PENDING` request, and every later Accept
on the booking fails with `AlreadyDecided`. -/
theorem instant_single_winner (b : BookingState) (hInv : AcceptInv b) :
    (∀ ops : List Op, acceptedCount (run b ops).requests ≤ 1) ∧
    (∀ (p now : Nat) (o1 o2 : String),
      (accept b p now o1 o2).1 = AcceptOutcome.ok →
      (accept b p now o1 o2).2.provider = some p ∧
      (accept b p now o1 o2).2.status = BookingStatus.confirmed ∧
      (∃ r ∈ (accept b p now o1 o2).2.requests,
        r.provider = p ∧ r.status = RequestStatus.accepted ∧
        r.respondedAt = some now) ∧
      (∀ r ∈ (accept b p now o1 o2).2.requests,
        r.status ≠ RequestStatus.pending) ∧
      (accept b p now o1 o2).2.requests.length = b.requests.length ∧
      (∀ i (hi : i < b.requests.length)
          (hi' : i < (accept b p now o1 o2).2.requests.length),
        (b.requests.get ⟨i, hi⟩).status = RequestStatus.pending →
        (b.requests.get ⟨i, hi⟩).provider ≠ p →
        (accept b p now o1 o2).2.requests.get ⟨i, hi'⟩ =
          { b.requests.get ⟨i, hi⟩ with
              status := RequestStatus.expired,
              respondedAt := some now }) ∧
      (∀ (ops : List Op) (q m : Nat) (u1 u2 : String),
        (accept (run (accept b p now o1 o2).2 ops) q m u1 u2).1 =
          AcceptOutcome.errAlreadyDecided)) := by
  constructor
  · intro ops
    exact (acceptInv_run b ops hInv).2
  · intro p now o1 o2 hok
    obtain ⟨hty, hs, hexp, r, h4⟩ := accept_ok_conditions b p now o1 o2 hok
    have heq := accept_of_pending b p now o1 o2 hty hs hexp r h4
    rw [heq]
    refine ⟨?_, ?_, ?_, ?_, ?_, ?_, ?_⟩
    · exact saveOtps_provider _ o1 o2
    · exact saveOtps_status _ o1 o2
    · obtain ⟨r', hr', hprov, hstat, hresp⟩ :=
        mem_setFirstPending_of_findPending b.requests p
          RequestStatus.accepted now r h4
      refine ⟨r', ?_, hprov, hstat, hresp⟩
      exact mem_expirePendingStamped_of_not_pending _ now r' hr'
        (by rw [hstat]; intro hc; cases hc)
    · exact fun x hx => not_pending_of_mem_expirePendingStamped _ now x hx
    · rw [expirePendingStamped_length, setFirstPending_length]
    · intro i hi hi' hpend hprov
      have hi2 : i < (setFirstPending b.requests p
          RequestStatus.accepted now).length := by
        rw [setFirstPending_length]; exact hi
      rw [expirePendingStamped_get _ now i hi2 hi',
        setFirstPending_get_of_not_match b.requests p
          RequestStatus.accepted now i hi hi2 (fun hc => hprov hc.1),
        if_pos hpend]
    · intro ops q m u1 u2
      refine accept_fst_of_ne_searching _ q m u1 u2 ?_
      refine run_ne_searching _ ops ?_
      have : (saveOtps { b with
          provider := some p,
          status := BookingStatus.confirmed } o1 o2).status =
          BookingStatus.confirmed := saveOtps_status _ o1 o2
      intro hc
      rw [show ({ saveOtps { b with
          provider := some p,
          status := BookingStatus.confirmed } o1 o2 with
            requests := expirePendingStamped (setFirstPending b.requests p
              RequestStatus.accepted now) now } : BookingState).status =
          (saveOtps { b with
            provider := some p,
            status := BookingStatus.confirmed } o1 o2).status from rfl,
        this] at hc
      cases hc

/-- Witness for C1 on the sample booking: provider 1 accepts first; the
trace where provider 2 then declines and retries to accept keeps at most
one accepted request, and the accept assigned provider 1. -/
theorem instant_single_winner_check :
    AcceptInv searchingBooking ∧
    acceptedCount (run searchingBooking
      [Op.acceptOp 1 5 "1111" "2222", Op.declineOp 2 6,
       Op.acceptOp 2 7 "3333" "4444"]).requests ≤ 1 ∧
    (accept searchingBooking 1 5 "1111" "2222").2.provider = some 1 ∧
    (accept searchingBooking 1 5 "1111" "2222").2.status =
      BookingStatus.confirmed := by
  have hInv : AcceptInv searchingBooking := ⟨fun _ => by decide, by decide⟩
  have h := instant_single_winner searchingBooking hInv
  have h2 := h.2 1 5 "1111" "2222" (by decide)
  exact ⟨hInv, h.1 _, h2.1, h2.2.1⟩

/-- C2: the Accept precondition checks run in order with distinct errors
and no stray mutation: a booking not in `SEARCHING` fails with
`AlreadyDecided` leaving the state unchanged; a `SEARCHING` booking past
`expires_at` is set `EXPIRED` and fails with `Expired`, its requests
untouched; otherwise a caller without a `PENDING` request fails with
`NoPendingRequest` leaving the state unchanged. -/
theorem accept_precondition_order (b : BookingState) (p now : Nat)
    (o1 o2 : String) (hType : b.bookingType = BookingType.instant) :
    (b.status ≠ BookingStatus.searching →
      accept b p now o1 o2 = (AcceptOutcome.errAlreadyDecided, b)) ∧
    (∀ e, b.status = BookingStatus.searching → b.expiresAt = some e →
      e < now →
      accept b p now o1 o2 =
        (AcceptOutcome.errExpired, { b with status := BookingStatus.expired })) ∧
    (b.status = BookingStatus.searching → isExpired b now = false →
      findPending b.requests p = none →
      accept b p now o1 o2 = (AcceptOutcome.errNoPendingRequest, b)) := by
  refine ⟨?_, ?_, ?_⟩
  · intro h
    exact accept_of_not_available b p now o1 o2 fun hc => h hc.2
  · intro e hs he hlt
    refine accept_of_expired b p now o1 o2 hType hs ?_
    simp [isExpired, hType, he, hs, hlt]
  · intro hs hexp hfp
    exact accept_of_no_pending b p now o1 o2 hType hs hexp hfp

/-- Witness for C2: the three failure branches on concrete bookings — an
already-confirmed booking, the sample booking past its deadline, and a
provider without a request. -/
theorem accept_precondition_order_check :
    accept confirmedBooking 2 5 "1111" "2222" =
      (AcceptOutcome.errAlreadyDecided, confirmedBooking) ∧
    accept searchingBooking 1 200 "1111" "2222" =
      (AcceptOutcome.errExpired,
        { searchingBooking with status := BookingStatus.expired }) ∧
    accept searchingBooking 3 5 "1111" "2222" =
      (AcceptOutcome.errNoPendingRequest, searchingBooking) := by
  refine ⟨?_, ?_, ?_⟩
  · exact (accept_precondition_order confirmedBooking 2 5 "1111" "2222"
      rfl).1 (by decide)
  · exact (accept_precondition_order searchingBooking 1 200 "1111" "2222"
      rfl).2.1 100 rfl rfl (by decide)
  · exact (accept_precondition_order searchingBooking 3 5 "1111" "2222"
      rfl).2.2 rfl (by decide) (by decide)

/-- C4: Decline marks the caller's pending request `DECLINED` with
`responded_at = now` and decrements the pending count by one; the booking
is set `EXPIRED` exactly when no pending request remains afterwards, and
a caller without a pending request fails with `NoPendingRequest`. -/
theorem decline_contract (b : BookingState) (p now : Nat) :
    (findPending b.requests p = none →
      decline b p now = (DeclineOutcome.errNoPendingRequest, b)) ∧
    (∀ r, findPending b.requests p = some r →
      (decline b p now).1 = DeclineOutcome.ok ∧
      (∃ r' ∈ (decline b p now).2.requests,
        r'.provider = p ∧ r'.status = RequestStatus.declined ∧
        r'.respondedAt = some now) ∧
      countPending (decline b p now).2.requests + 1 =
        countPending b.requests ∧
      (countPending (decline b p now).2.requests = 0 →
        (decline b p now).2.status = BookingStatus.expired) ∧
      (countPending (decline b p now).2.requests ≠ 0 →
        (decline b p now).2.status = b.status)) := by
  constructor
  · exact fun h => decline_of_no_pending b p now h
  · intro r h4
    have hmem := mem_setFirstPending_of_findPending b.requests p
      RequestStatus.declined now r h4
    have hcnt := countPending_setFirstPending b.requests p
      RequestStatus.declined now (by intro hc; cases hc) r h4
    by_cases hz : countPending (setFirstPending b.requests p
        RequestStatus.declined now) = 0
    · rw [decline_of_pending_zero b p now r h4 hz]
      exact ⟨rfl, hmem, hcnt, fun _ => rfl, fun hne => absurd hz hne⟩
    · rw [decline_of_pending_pos b p now r h4 hz]
      exact ⟨rfl, hmem, hcnt, fun hzz => absurd hzz hz, fun _ => rfl⟩

/-- Witness for C4: both providers of the sample booking decline in
sequence — after the first decline the booking is still `SEARCHING`,
after the second it is `EXPIRED`; a third provider gets
`NoPendingRequest`. -/
theorem decline_contract_check :
    (decline searchingBooking 1 5).1 = DeclineOutcome.ok ∧
    (decline searchingBooking 1 5).2.status = BookingStatus.searching ∧
    (decline (decline searchingBooking 1 5).2 2 6).2.status =
      BookingStatus.expired ∧
    decline searchingBooking 3 5 =
      (DeclineOutcome.errNoPendingRequest, searchingBooking) := by
  have h1 := (decline_contract searchingBooking 1 5).2 (reqPending 1)
    (by decide)
  have h2 := (decline_contract (decline searchingBooking 1 5).2 2 6).2
    (reqPending 2) (by decide)
  exact ⟨h1.1, h1.2.2.2.2 (by decide), h2.2.2.2.1 (by decide),
    (decline_contract searchingBooking 3 5).1 (by decide)⟩

/-- C5: contrary to the specified award step, Accept never writes
`assigned_at` — the field is left exactly as it was on every path, and on
the sample booking it is still null after a successful accept. -/
theorem accept_never_sets_assigned_at :
    (∀ (b : BookingState) (p now : Nat) (o1 o2 : String),
      ((accept b p now o1 o2).2).assignedAt = b.assignedAt) ∧
    (accept searchingBooking 1 5 "1111" "2222").1 = AcceptOutcome.ok ∧
    ((accept searchingBooking 1 5 "1111" "2222").2).assignedAt = none := by
  refine ⟨?_, by decide, by decide⟩
  intro b p now o1 o2
  by_cases hc : b.bookingType = BookingType.instant ∧
      b.status = BookingStatus.searching
  · by_cases h3 : isExpired b now = true
    · rw [accept_of_expired b p now o1 o2 hc.1 hc.2 h3]
    · cases h4 : findPending b.requests p with
      | none =>
        rw [accept_of_no_pending b p now o1 o2 hc.1 hc.2
          (by simpa using h3) h4]
      | some r =>
        rw [accept_of_pending b p now o1 o2 hc.1 hc.2
          (by simpa using h3) r h4]
        exact saveOtps_assignedAt _ o1 o2
  · rw [accept_of_not_available b p now o1 o2 hc]

/-- Counterexample to C6: `BookingCreateSerializer.create` builds a
scheduled booking with the service's partner already assigned while the
status is the model default `PENDING`, which is outside
{Confirmed, InProgress, Completed}. -/
theorem scheduled_create_violates_provider_invariant :
    (createScheduledBooking { partner := 7, price := 250 } 12 34).provider =
      some 7 ∧
    (createScheduledBooking { partner := 7, price := 250 } 12 34).status =
      BookingStatus.pending ∧
    BookingStatus.pending ≠ BookingStatus.confirmed ∧
    BookingStatus.pending ≠ BookingStatus.inProgress ∧
    BookingStatus.pending ≠ BookingStatus.completed := by
  exact ⟨rfl, rfl, by decide⟩

/-- C6 (amended): for an instant booking as created by the instant flow,
under the response operations (Accept, Decline, expiry sweep) the
invariant holds: the provider reference is non-null iff the status lies
in {Confirmed, InProgress, Completed} (only Confirmed is reachable).
The unrestricted claim fails: scheduled creation sets a provider while
`PENDING`, and cancellation keeps the provider while `CANCELLED`. -/
theorem instant_provider_iff_confirmed (dist : Rat → Rat → Rat → Rat → Rat)
    (services : List ServiceRec) (inp : CreateInput) (now : Nat)
    (st : BookingState) (ops : List Op)
    (h : (instantCreate dist services inp now).2 = some st) :
    (run st ops).provider ≠ none ↔
      ((run st ops).status = BookingStatus.confirmed ∨
       (run st ops).status = BookingStatus.inProgress ∨
       (run st ops).status = BookingStatus.completed) := by
  have hInv := providerInv_run st ops
    (providerInv_instantCreate dist services inp now st h)
  rcases hInv with ⟨hp, hst⟩ | ⟨q, hp, hst, _⟩
  · constructor
    · intro hne; exact absurd hp hne
    · intro hs
      rcases hst with h' | h' <;> rcases hs with hs | hs | hs <;>
        rw [h'] at hs <;> cases hs
  · constructor
    · intro _; exact Or.inl hst
    · intro _; rw [hp]; intro hc; cases hc

/-- Witness for C6's amended statement: on a concrete instant booking
created with one nearby provider, after provider 1 accepts, the provider
reference is non-null exactly because the booking is `CONFIRMED`. -/
theorem instant_provider_iff_confirmed_check :
    (run ((instantCreate distSeven sampleServices sampleInput 0).2.getD
        expiredBooking) [Op.acceptOp 1 5 "1111" "2222"]).provider ≠ none ↔
      ((run ((instantCreate distSeven sampleServices sampleInput 0).2.getD
          expiredBooking) [Op.acceptOp 1 5 "1111" "2222"]).status =
        BookingStatus.confirmed ∨
       (run ((instantCreate distSeven sampleServices sampleInput 0).2.getD
          expiredBooking) [Op.acceptOp 1 5 "1111" "2222"]).status =
        BookingStatus.inProgress ∨
       (run ((instantCreate distSeven sampleServices sampleInput 0).2.getD
          expiredBooking) [Op.acceptOp 1 5 "1111" "2222"]).status =
        BookingStatus.completed) := by
  have hsome : (instantCreate distSeven sampleServices sampleInput 0).2.isSome
      = true := by decide
  obtain ⟨v, hv⟩ := Option.isSome_iff_exists.mp hsome
  rw [hv]
  simp only [Option.getD_some]
  exact instant_provider_iff_confirmed distSeven sampleServices sampleInput 0
    v [Op.acceptOp 1 5 "1111" "2222"] hv

/-- Counterexample to C7: customer cancellation of a `SEARCHING` instant
booking moves it out of `SEARCHING` (to `CANCELLED`) while leaving both
broadcast requests `PENDING`. -/
theorem cancel_leaves_requests_pending :
    (cancel searchingBooking "changed my mind" 9).1 = true ∧
    (cancel searchingBooking "changed my mind" 9).2.status =
      BookingStatus.cancelled ∧
    (cancel searchingBooking "changed my mind" 9).2.status ≠
      BookingStatus.searching ∧
    countPending (cancel searchingBooking "changed my mind" 9).2.requests =
      2 := by
  exact ⟨by decide, by decide, by decide, by decide⟩

/-- C7 (amended): a successful Accept and a fired expiry sweep leave no
request `PENDING`, and a Decline changes the booking's status only once
the pending count reaches zero; but the expiry transition inside Accept
and customer cancellation move the booking out of `SEARCHING` without
touching its requests, so the original unconditional claim fails on
those two paths. -/
theorem pending_requests_cleanup_amended (b : BookingState) (p now : Nat)
    (o1 o2 : String) (reason : String) (u : Nat) :
    ((accept b p now o1 o2).1 = AcceptOutcome.ok →
      ∀ r ∈ (accept b p now o1 o2).2.requests,
        r.status ≠ RequestStatus.pending) ∧
    ((decline b p now).2.status ≠ b.status →
      countPending (decline b p now).2.requests = 0) ∧
    ((sweep b now).status ≠ b.status →
      ∀ r ∈ (sweep b now).requests, r.status ≠ RequestStatus.pending) ∧
    ((cancel b reason u).2.requests = b.requests) ∧
    (isExpired b now = true →
      (accept b p now o1 o2).2.requests = b.requests ∧
      (accept b p now o1 o2).2.status = BookingStatus.expired ∧
      (accept b p now o1 o2).1 = AcceptOutcome.errExpired) := by
  refine ⟨?_, ?_, ?_, ?_, ?_⟩
  · intro hok
    obtain ⟨hty, hs, hexp, r, h4⟩ := accept_ok_conditions b p now o1 o2 hok
    rw [accept_of_pending b p now o1 o2 hty hs hexp r h4]
    exact fun x hx => not_pending_of_mem_expirePendingStamped _ now x hx
  · intro hne
    cases h4 : findPending b.requests p with
    | none => rw [decline_of_no_pending b p now h4] at hne; exact absurd rfl hne
    | some r =>
      by_cases hz : countPending (setFirstPending b.requests p
          RequestStatus.declined now) = 0
      · rw [decline_of_pending_zero b p now r h4 hz]
        exact hz
      · rw [decline_of_pending_pos b p now r h4 hz] at hne
        exact absurd rfl hne
  · intro hne
    by_cases hcond : b.bookingType = BookingType.instant ∧
        b.status = BookingStatus.searching ∧ isExpired b now = true
    · unfold sweep
      rw [if_pos hcond]
      exact fun x hx => not_pending_of_mem_expirePendingPlain _ x hx
    · rw [show sweep b now = b from by unfold sweep; rw [if_neg hcond]] at hne
      exact absurd rfl hne
  · unfold cancel
    split <;> rfl
  · intro hexp
    obtain ⟨hty, hs, _⟩ := isExpired_true_elim b now hexp
    rw [accept_of_expired b p now o1 o2 hty hs hexp]
    exact ⟨rfl, rfl, rfl⟩

/-- Witness for C7's amended statement: a successful accept leaves no
pending request; the expiry transition inside Accept (at `now = 200`,
past the deadline) and a cancellation both leave the two pending requests
untouched. -/
theorem pending_requests_cleanup_amended_check :
    countPending (accept searchingBooking 1 5 "1111" "2222").2.requests = 0 ∧
    (accept searchingBooking 1 200 "1111" "2222").2.requests =
      searchingBooking.requests ∧
    (cancel searchingBooking "changed plans today" 9).2.requests =
      searchingBooking.requests := by
  refine ⟨?_, ?_, ?_⟩
  · exact (countPending_eq_zero_iff _).mpr
      ((pending_requests_cleanup_amended searchingBooking 1 5
        "1111" "2222" "x" 0).1 (by decide))
  · exact ((pending_requests_cleanup_amended searchingBooking 1 200
      "1111" "2222" "x" 0).2.2.2.2 (by decide)).1
  · exact (pending_requests_cleanup_amended searchingBooking 1 5
      "1111" "2222" "changed plans today" 9).2.2.2.1

/-- Counterexample to C8: an `EXPIRED` booking — a terminal state — is
cancelled successfully, changing its status to `CANCELLED`. -/
theorem cancel_moves_expired_to_cancelled :
    expiredBooking.status = BookingStatus.expired ∧
    (cancel expiredBooking "no longer needed" 3).1 = true ∧
    (cancel expiredBooking "no longer needed" 3).2.status =
      BookingStatus.cancelled := by
  exact ⟨rfl, by decide, by decide⟩

/-- C8 (amended): terminal statuses are absorbing for Accept, the expiry
sweep and the provider action view; cancellation rejects `COMPLETED` and
`CANCELLED` bookings but moves `EXPIRED` and `REJECTED` ones to
`CANCELLED`; and Decline (which never reads the booking's status) alters
a terminal status only by setting it `EXPIRED` when the declined request
emptied a leftover pending set. -/
theorem terminal_absorbing_amended (b : BookingState)
    (hterm : b.status = BookingStatus.expired ∨
      b.status = BookingStatus.cancelled ∨
      b.status = BookingStatus.completed ∨
      b.status = BookingStatus.rejected) :
    (∀ (p now : Nat) (o1 o2 : String), (accept b p now o1 o2).2 = b) ∧
    (∀ now, sweep b now = b) ∧
    (∀ (a : ProviderAction) (otp rr : Option String) (u now : Nat)
      (o1 o2 : String), (providerAction b a otp rr u now o1 o2).2 = b) ∧
    ((b.status = BookingStatus.completed ∨
        b.status = BookingStatus.cancelled) →
      ∀ (reason : String) (u : Nat), cancel b reason u = (false, b)) ∧
    ((b.status = BookingStatus.expired ∨
        b.status = BookingStatus.rejected) →
      ∀ (reason : String) (u : Nat), ¬ reason.length < 10 →
      cancel b reason u =
        (true, { b with
                   status := BookingStatus.cancelled,
                   cancellationReason := some reason,
                   cancelledBy := some u })) ∧
    (∀ (p now : Nat), (decline b p now).2.status ≠ b.status →
      (decline b p now).2.status = BookingStatus.expired ∧
      b.status ≠ BookingStatus.expired ∧
      countPending (decline b p now).2.requests = 0) := by
  have hns : b.status ≠ BookingStatus.searching := by
    rcases hterm with h | h | h | h <;> rw [h] <;> intro hc <;> cases hc
  refine ⟨?_, ?_, ?_, ?_, ?_, ?_⟩
  · intro p now o1 o2
    rw [accept_of_not_available b p now o1 o2 fun hc => hns hc.2]
  · intro now
    exact sweep_of_ne_searching b now hns
  · intro a otp rr u now o1 o2
    have hval : ¬ providerActionValid b a otp rr = true := by
      rw [providerActionValid_false_of_terminal b a otp rr hterm]
      intro hc
      cases hc
    unfold providerAction
    rw [if_neg hval]
  · intro hcc reason u
    have hval : cancelValid b reason = false := by
      unfold cancelValid
      by_cases hlen : reason.length < 10
      · rw [if_pos hlen]
      · rw [if_neg hlen, if_pos hcc]
    unfold cancel
    rw [if_neg (by rw [hval]; intro hc; cases hc)]
  · intro her reason u hlen
    have hncc : ¬ (b.status = BookingStatus.completed ∨
        b.status = BookingStatus.cancelled) := by
      rcases her with h | h <;> rw [h] <;> rintro (hc | hc) <;> cases hc
    have hnip : ¬ b.status = BookingStatus.inProgress := by
      rcases her with h | h <;> rw [h] <;> intro hc <;> cases hc
    have hval : cancelValid b reason = true := by
      unfold cancelValid
      rw [if_neg hlen, if_neg hncc, if_neg hnip]
    unfold cancel
    rw [if_pos hval]
  · intro p now hne
    cases h4 : findPending b.requests p with
    | none => rw [decline_of_no_pending b p now h4] at hne; exact absurd rfl hne
    | some r =>
      by_cases hz : countPending (setFirstPending b.requests p
          RequestStatus.declined now) = 0
      · rw [decline_of_pending_zero b p now r h4 hz] at hne ⊢
        refine ⟨rfl, ?_, hz⟩
        intro hb
        rw [hb] at hne
        exact absurd rfl hne
      · rw [decline_of_pending_pos b p now r h4 hz] at hne
        exact absurd rfl hne

/-- Witness for C8's amended statement on the expired sample booking:
the sweep and Accept leave it untouched, and cancellation moves it to
`CANCELLED`. -/
theorem terminal_absorbing_amended_check :
    sweep expiredBooking 500 = expiredBooking ∧
    (accept expiredBooking 1 5 "1111" "2222").2 = expiredBooking ∧
    cancel expiredBooking "duplicate request" 4 =
      (true, { expiredBooking with
                 status := BookingStatus.cancelled,
                 cancellationReason := some "duplicate request",
                 cancelledBy := some 4 }) := by
  have h := terminal_absorbing_amended expiredBooking (Or.inl rfl)
  exact ⟨h.2.1 500, h.1 1 5 "1111" "2222",
    h.2.2.2.2.1 (Or.inl rfl) "duplicate request" 4 (by decide)⟩


/-- Counterexample to C3: provider 1 owns two active services in the
category, so the loop's second insert for the same (booking, provider,
round) violates the `unique_together` constraint of models.py and raises
an uncaught IntegrityError (HTTP 500).  The view runs no transaction, so
the first request row persists and the booking stays `SEARCHING`; in
particular provider 2, eligible and only 7 km away inside the 15 km
radius, receives no request, contradicting "exactly one Pending request
for every eligible provider", and the zero-requests handling never
runs. -/
theorem duplicate_service_breaks_broadcast :
    (instantCreate distSeven dupServices sampleInput 0).1 =
      CreateOutcome.serverError ∧
    providerCount ((instantCreate distSeven dupServices sampleInput 0).2.getD
      expiredBooking).requests 1 = 1 ∧
    providerCount ((instantCreate distSeven dupServices sampleInput 0).2.getD
      expiredBooking).requests 2 = 0 ∧
    ((instantCreate distSeven dupServices sampleInput 0).2.getD
      expiredBooking).status = BookingStatus.searching ∧
    secondPartner.isVerified = true ∧ secondPartner.isAvailable = true ∧
    truthy secondPartner.latitude = true ∧
    truthy secondPartner.longitude = true ∧
    distSeven 10 20 (secondPartner.latitude.getD 0)
      (secondPartner.longitude.getD 0) ≤ ((15 : Nat) : Rat) := by
  exact ⟨by decide, by decide, by decide, by decide, rfl, rfl, by decide,
    by decide, by decide⟩

/-- C3 (amended): provided no provider appears twice among the eligible
services — without this precondition the insert loop aborts with an
IntegrityError instead of completing the broadcast — the broadcast
creates exactly one `PENDING` request, carrying the distance rounded to 2
decimals, for every provider with an active service in the booking's
category who is verified, available, has truthy coordinates and lies
within the category's search radius of the broadcast origin; only such
providers receive requests; and when zero requests are created the view
reports `NoProvidersNearby` with the booking immediately `EXPIRED` and no
request rows. -/
theorem broadcast_contract (dist : Rat → Rat → Rat → Rat → Rat)
    (services : List ServiceRec) (inp : CreateInput) (now : Nat)
    (hv : instantCreateValid inp = true)
    (hpw : (eligibleServices services inp.category.id).Pairwise
      (fun a c => a.provider.id ≠ c.provider.id)) :
    (∀ s ∈ services,
      s.category = inp.category.id → s.isActive = true →
      s.provider.isVerified = true → s.provider.isAvailable = true →
      truthy s.provider.latitude = true →
      truthy s.provider.longitude = true →
      dist (inp.rawLatitude.getD 0) (inp.rawLongitude.getD 0)
          (s.provider.latitude.getD 0) (s.provider.longitude.getD 0) ≤
        ((inp.category.instantSearchRadiusKm : Nat) : Rat) →
      ∃ st, (instantCreate dist services inp now).2 = some st ∧
        providerCount st.requests s.provider.id = 1 ∧
        ∃ r ∈ st.requests, r.provider = s.provider.id ∧
          r.status = RequestStatus.pending ∧
          r.distanceKm = round2 (dist (inp.rawLatitude.getD 0)
            (inp.rawLongitude.getD 0) (s.provider.latitude.getD 0)
            (s.provider.longitude.getD 0))) ∧
    (∀ st, (instantCreate dist services inp now).2 = some st →
      ∀ r ∈ st.requests, ∃ s ∈ services,
        s.category = inp.category.id ∧ s.isActive = true ∧
        s.provider.isVerified = true ∧ s.provider.isAvailable = true ∧
        truthy s.provider.latitude = true ∧
        truthy s.provider.longitude = true ∧
        dist (inp.rawLatitude.getD 0) (inp.rawLongitude.getD 0)
            (s.provider.latitude.getD 0) (s.provider.longitude.getD 0) ≤
          ((inp.category.instantSearchRadiusKm : Nat) : Rat) ∧
        r.provider = s.provider.id ∧ r.status = RequestStatus.pending) ∧
    (broadcastRequests dist services inp.category.id
        (inp.rawLatitude.getD 0) (inp.rawLongitude.getD 0)
        ((inp.category.instantSearchRadiusKm : Nat) : Rat) = [] →
      instantCreate dist services inp now =
        (CreateOutcome.errNoProvidersNearby,
          some { freshInstantBooking inp now with
                   status := BookingStatus.expired }) ∧
      (freshInstantBooking inp now).requests = []) := by
  refine ⟨?_, ?_, ?_⟩
  · intro s hs hcat hact hver hav hlat hlon hd
    have hel : s ∈ eligibleServices services inp.category.id :=
      (mem_eligibleServices_iff s services inp.category.id).mpr
        ⟨hs, hcat, hact, hver, hav⟩
    obtain ⟨req, hent⟩ : ∃ t, broadcastEntry dist (inp.rawLatitude.getD 0)
        (inp.rawLongitude.getD 0)
        ((inp.category.instantSearchRadiusKm : Nat) : Rat) s = some t :=
      ⟨_, broadcastEntry_some_intro dist (inp.rawLatitude.getD 0)
        (inp.rawLongitude.getD 0)
        ((inp.category.instantSearchRadiusKm : Nat) : Rat) s hlat hlon hd⟩
    obtain ⟨_, _, _, hreq⟩ := broadcastEntry_some_elim dist
      (inp.rawLatitude.getD 0) (inp.rawLongitude.getD 0)
      ((inp.category.instantSearchRadiusKm : Nat) : Rat) s req hent
    have hmem : req ∈ broadcastRequests dist services inp.category.id
        (inp.rawLatitude.getD 0) (inp.rawLongitude.getD 0)
        ((inp.category.instantSearchRadiusKm : Nat) : Rat) := by
      rw [broadcastRequests, List.mem_filterMap]
      exact ⟨s, hel, hent⟩
    have hnz : broadcastRequests dist services inp.category.id
        (inp.rawLatitude.getD 0) (inp.rawLongitude.getD 0)
        ((inp.category.instantSearchRadiusKm : Nat) : Rat) ≠ [] :=
      List.ne_nil_of_mem hmem
    refine ⟨_, by rw [instantCreate_pos dist services inp now hv hpw hnz], ?_, ?_⟩
    · exact providerCount_filterMap_entry_one dist (inp.rawLatitude.getD 0)
        (inp.rawLongitude.getD 0)
        ((inp.category.instantSearchRadiusKm : Nat) : Rat)
        (eligibleServices services inp.category.id) s req hel hpw hent
    · exact ⟨req, hmem, by rw [hreq], by rw [hreq], by rw [hreq]⟩
  · intro st hst r hr
    by_cases hz : broadcastRequests dist services inp.category.id
        (inp.rawLatitude.getD 0) (inp.rawLongitude.getD 0)
        ((inp.category.instantSearchRadiusKm : Nat) : Rat) = []
    · rw [instantCreate_zero dist services inp now hv hz] at hst
      rw [← Option.some.inj hst] at hr
      cases hr
    · rw [instantCreate_pos dist services inp now hv hpw hz] at hst
      rw [← Option.some.inj hst] at hr
      obtain ⟨s, hsm, hcat, hact, hver, hav, hlat, hlon, hd, hprov, hstat,
        _, _⟩ := of_mem_broadcastRequests dist services inp.category.id
          (inp.rawLatitude.getD 0) (inp.rawLongitude.getD 0)
          ((inp.category.instantSearchRadiusKm : Nat) : Rat) r hr
      exact ⟨s, hsm, hcat, hact, hver, hav, hlat, hlon, hd, hprov, hstat⟩
  · intro hz
    exact ⟨instantCreate_zero dist services inp now hv hz, rfl⟩

/-- Witness for C3 at a concrete broadcast: one eligible provider 7 km
away inside the 15 km radius gets exactly one pending request at the
rounded distance, which evaluates to 7. -/
theorem broadcast_contract_check :
    providerCount ((instantCreate distSeven sampleServices sampleInput
      0).2.getD expiredBooking).requests 1 = 1 ∧
    round2 7 = 7 := by
  obtain ⟨st, hst, hcount, -⟩ := (broadcast_contract distSeven sampleServices
    sampleInput 0 (by decide) (by decide)).1
    { category := 5, isActive := true, provider := samplePartner }
    (by decide) rfl rfl rfl rfl (by decide) (by decide) (by decide)
  constructor
  · rw [hst, Option.getD_some]
    exact hcount
  · unfold round2
    norm_num

/-- C9: the broadcast origin is read from the raw request fields
`latitude`/`longitude` with default 0, while the booking stores the
separately required `lat`/`lng`; a creation request supplying only
`lat`/`lng` therefore measures every provider distance from (0, 0). -/
theorem broadcast_origin_defaults_to_zero (dist : Rat → Rat → Rat → Rat → Rat)
    (services : List ServiceRec) (inp : CreateInput) (now : Nat)
    (hv : instantCreateValid inp = true)
    (hla : inp.rawLatitude = none) (hlo : inp.rawLongitude = none) :
    ∃ st, (instantCreate dist services inp now).2 = some st ∧
      st.lat = some inp.lat ∧ st.lng = some inp.lng ∧
      (st.requests = broadcastRequests dist services inp.category.id 0 0
          ((inp.category.instantSearchRadiusKm : Nat) : Rat) ∨
        st.requests = [] ∨
        ((instantCreate dist services inp now).1 = CreateOutcome.serverError ∧
          ∃ t, broadcastRequests dist services inp.category.id 0 0
            ((inp.category.instantSearchRadiusKm : Nat) : Rat) =
              st.requests ++ t)) ∧
      ∀ r ∈ st.requests, ∃ s ∈ services,
        r.provider = s.provider.id ∧
        r.distanceKm = round2 (dist 0 0 (s.provider.latitude.getD 0)
          (s.provider.longitude.getD 0)) := by
  have hgla : inp.rawLatitude.getD 0 = 0 := by rw [hla]; rfl
  have hglo : inp.rawLongitude.getD 0 = 0 := by rw [hlo]; rfl
  have horigin : ∀ r, r ∈ broadcastRequests dist services inp.category.id
      (inp.rawLatitude.getD 0) (inp.rawLongitude.getD 0)
      ((inp.category.instantSearchRadiusKm : Nat) : Rat) →
      ∃ s ∈ services, r.provider = s.provider.id ∧
        r.distanceKm = round2 (dist 0 0 (s.provider.latitude.getD 0)
          (s.provider.longitude.getD 0)) := by
    intro r hr2
    rw [hgla, hglo] at hr2
    obtain ⟨s, hsm, _, _, _, _, _, _, _, hprov, _, _, hdist⟩ :=
      of_mem_broadcastRequests dist services inp.category.id 0 0
        ((inp.category.instantSearchRadiusKm : Nat) : Rat) r hr2
    exact ⟨s, hsm, hprov, hdist⟩
  cases hloop : broadcastLoop dist (inp.rawLatitude.getD 0)
      (inp.rawLongitude.getD 0)
      ((inp.category.instantSearchRadiusKm : Nat) : Rat)
      (eligibleServices services inp.category.id) [] with
  | integrityError pers =>
    rw [instantCreate_loop_error dist services inp now hv pers hloop]
    refine ⟨_, rfl, rfl, rfl, Or.inr (Or.inr ⟨rfl, ?_⟩), ?_⟩
    · obtain ⟨t, ht⟩ := broadcastLoop_error_prefix dist
        (inp.rawLatitude.getD 0) (inp.rawLongitude.getD 0)
        ((inp.category.instantSearchRadiusKm : Nat) : Rat)
        (eligibleServices services inp.category.id) [] pers hloop
      rw [List.nil_append] at ht
      refine ⟨t, ?_⟩
      show broadcastRequests dist services inp.category.id 0 0
        ((inp.category.instantSearchRadiusKm : Nat) : Rat) = pers ++ t
      rw [hgla, hglo] at ht
      exact ht
    · intro r hr
      have hr' : r ∈ pers := hr
      have hmem := mem_rows_broadcastLoop dist (inp.rawLatitude.getD 0)
        (inp.rawLongitude.getD 0)
        ((inp.category.instantSearchRadiusKm : Nat) : Rat)
        (eligibleServices services inp.category.id) [] r
        (by rw [hloop]; exact hr')
      rcases hmem with h0 | h0
      · cases h0
      · exact horigin r h0
  | ok reqs =>
    by_cases hz : reqs = []
    · rw [hz] at hloop
      rw [instantCreate_loop_ok_zero dist services inp now hv hloop]
      refine ⟨_, rfl, rfl, rfl, Or.inr (Or.inl rfl), ?_⟩
      intro r hr
      exact absurd hr (by simp [freshInstantBooking])
    · have hreqs : reqs = broadcastRequests dist services inp.category.id
          (inp.rawLatitude.getD 0) (inp.rawLongitude.getD 0)
          ((inp.category.instantSearchRadiusKm : Nat) : Rat) := by
        have heq := broadcastLoop_ok_eq dist (inp.rawLatitude.getD 0)
          (inp.rawLongitude.getD 0)
          ((inp.category.instantSearchRadiusKm : Nat) : Rat)
          (eligibleServices services inp.category.id) [] reqs hloop
        rw [List.nil_append] at heq
        exact heq
      rw [instantCreate_loop_ok_pos dist services inp now hv reqs hloop hz]
      refine ⟨_, rfl, rfl, rfl, Or.inl ?_, ?_⟩
      · show reqs = broadcastRequests dist services inp.category.id 0 0
          ((inp.category.instantSearchRadiusKm : Nat) : Rat)
        rw [hreqs, hgla, hglo]
      · intro r hr
        have hr2 : r ∈ reqs := hr
        rw [hreqs] at hr2
        exact horigin r hr2

/-- Witness for C9: with only `lat`/`lng` supplied, the created booking
stores (10, 20) but its single request carries the distance computed from
the origin (0, 0). -/
theorem broadcast_origin_defaults_to_zero_check :
    ((instantCreate distSeven sampleServices latLngOnlyInput 0).2.getD
      expiredBooking).lat = some 10 ∧
    ((instantCreate distSeven sampleServices latLngOnlyInput 0).2.getD
      expiredBooking).lng = some 20 ∧
    (((instantCreate distSeven sampleServices latLngOnlyInput 0).2.getD
        expiredBooking).requests =
      broadcastRequests distSeven sampleServices 5 0 0
        ((15 : Nat) : Rat) ∨
     ((instantCreate distSeven sampleServices latLngOnlyInput 0).2.getD
        expiredBooking).requests = []) := by
  obtain ⟨st, h1, h2, h3, h4, -⟩ := broadcast_origin_defaults_to_zero
    distSeven sampleServices latLngOnlyInput 0 (by decide) rfl rfl
  rw [h1, Option.getD_some]
  refine ⟨h2, h3, ?_⟩
  rcases h4 with h4 | h4 | h4
  · exact Or.inl h4
  · exact Or.inr h4
  · have hout : (instantCreate distSeven sampleServices latLngOnlyInput 0).1 =
        CreateOutcome.created 1 := by decide
    rw [hout] at h4
    cases h4.1

/-- C10: a provider whose stored latitude (or longitude) is exactly 0 is
excluded from every broadcast regardless of distance, because the
coordinate presence check uses numeric truthiness, under which a 0
coordinate and a missing one are indistinguishable. -/
theorem zero_coordinate_provider_excluded (dist : Rat → Rat → Rat → Rat → Rat)
    (services : List ServiceRec) (inp : CreateInput) (now : Nat) (q : Nat)
    (hq : ∀ s ∈ services, s.provider.id = q →
      s.provider.latitude = some 0 ∨ s.provider.longitude = some 0) :
    (∀ st, (instantCreate dist services inp now).2 = some st →
      ∀ r ∈ st.requests, r.provider ≠ q) ∧
    truthy (some 0) = false ∧ truthy none = false := by
  refine ⟨?_, rfl, rfl⟩
  have hrow : ∀ r, r ∈ broadcastRequests dist services inp.category.id
      (inp.rawLatitude.getD 0) (inp.rawLongitude.getD 0)
      ((inp.category.instantSearchRadiusKm : Nat) : Rat) →
      r.provider ≠ q := by
    intro r hr
    obtain ⟨s, hsm, _, _, _, _, hlat, hlon, _, hprov, _, _, _⟩ :=
      of_mem_broadcastRequests dist services inp.category.id
        (inp.rawLatitude.getD 0) (inp.rawLongitude.getD 0)
        ((inp.category.instantSearchRadiusKm : Nat) : Rat) r hr
    intro hrq
    rcases hq s hsm (by rw [← hprov, hrq]) with h0 | h0
    · rw [h0] at hlat
      cases hlat
    · rw [h0] at hlon
      cases hlon
  intro st hst r hr
  by_cases hv : instantCreateValid inp = true
  · cases hloop : broadcastLoop dist (inp.rawLatitude.getD 0)
        (inp.rawLongitude.getD 0)
        ((inp.category.instantSearchRadiusKm : Nat) : Rat)
        (eligibleServices services inp.category.id) [] with
    | integrityError pers =>
      rw [instantCreate_loop_error dist services inp now hv pers hloop] at hst
      rw [← Option.some.inj hst] at hr
      have hmem := mem_rows_broadcastLoop dist (inp.rawLatitude.getD 0)
        (inp.rawLongitude.getD 0)
        ((inp.category.instantSearchRadiusKm : Nat) : Rat)
        (eligibleServices services inp.category.id) [] r
        (by rw [hloop]; exact hr)
      rcases hmem with h0 | h0
      · cases h0
      · exact hrow r h0
    | ok reqs =>
      by_cases hz : reqs = []
      · rw [hz] at hloop
        rw [instantCreate_loop_ok_zero dist services inp now hv hloop] at hst
        rw [← Option.some.inj hst] at hr
        cases hr
      · rw [instantCreate_loop_ok_pos dist services inp now hv reqs
          hloop hz] at hst
        rw [← Option.some.inj hst] at hr
        have heq := broadcastLoop_ok_eq dist (inp.rawLatitude.getD 0)
          (inp.rawLongitude.getD 0)
          ((inp.category.instantSearchRadiusKm : Nat) : Rat)
          (eligibleServices services inp.category.id) [] reqs hloop
        rw [List.nil_append] at heq
        rw [heq] at hr
        exact hrow r hr
  · rw [instantCreate_invalid dist services inp now (by simpa using hv)] at hst
    cases hst

/-- Witness for C10: the zero-latitude provider 2 is 7 km away (inside
the 15 km radius) yet receives no request; a 0 coordinate is falsy like a
missing one. -/
theorem zero_coordinate_provider_excluded_check :
    truthy (some 0) = false ∧ truthy none = false ∧
    (instantCreate distSeven zeroLatServices sampleInput 0).1 =
      CreateOutcome.errNoProvidersNearby := by
  have h := zero_coordinate_provider_excluded distSeven zeroLatServices
    sampleInput 0 2 (by decide)
  exact ⟨h.2.1, h.2.2, by decide⟩

end Farmo
